import Mathlib

/-!
Verification of the config_guard repository core: a shallow embedding of the
Python data model (values, parameter specs, registry, store, integrity guard,
lock guard and the AppConfig facade) together with theorems settling the
behavioural claims about it.

Modelling conventions:
- Python runtime values are the inductive `PyVal`; mutability is tracked
  structurally (`vlist`/`vdict` are the mutable containers, `vtuple`/`vproxy`
  the immutable ones produced by freezing).  `deepcopy` is the identity on
  this value-semantics type (it produces a structurally equal, unaliased copy).
- Machine-level hashing (`hashlib.sha256`) is modelled as an injective
  abstraction: a checksum is the canonical serialization itself.  HMAC sealing
  is modelled as injective tagging of the serialization with the key.
- The environment (`ALLOW_CONFIG_BYPASS`, `CONFIG_HMAC_KEY`) is an explicit
  `Env` record threaded through the operations.
- Dictionaries are association lists in insertion order, written through
  `dictSet` (replace in place or append), matching Python dict semantics.
- Logging, warnings, audit history (best-effort, never aborts a write), the
  background checker thread and modification metadata have no effect on the
  store/integrity state and are not modelled.
-/

set_option maxRecDepth 4096

namespace ConfigGuard

/-- Python runtime values relevant to config_guard.  `vlist` and `vdict` are
the mutable containers; `vtuple` and `vproxy` (MappingProxyType) are the
frozen containers produced by `_recursive_immutable_copy`. -/
inductive PyVal where
  | vnone
  | vbool (b : Bool)
  | vint (n : Int)
  | vstr (s : String)
  | vlist (xs : List PyVal)
  | vtuple (xs : List PyVal)
  | vdict (kvs : List (String × PyVal))
  | vproxy (kvs : List (String × PyVal))

mutual
/-- Decidable structural equality on PyVal (spelled out constructor by
constructor; nested-inductive deriving is unavailable). -/
def PyVal.decEq : (a b : PyVal) → Decidable (a = b)
  | .vnone, .vnone => .isTrue rfl
  | .vnone, .vbool y => .isFalse (fun h => PyVal.noConfusion h)
  | .vnone, .vint y => .isFalse (fun h => PyVal.noConfusion h)
  | .vnone, .vstr y => .isFalse (fun h => PyVal.noConfusion h)
  | .vnone, .vlist y => .isFalse (fun h => PyVal.noConfusion h)
  | .vnone, .vtuple y => .isFalse (fun h => PyVal.noConfusion h)
  | .vnone, .vdict y => .isFalse (fun h => PyVal.noConfusion h)
  | .vnone, .vproxy y => .isFalse (fun h => PyVal.noConfusion h)
  | .vbool x, .vnone => .isFalse (fun h => PyVal.noConfusion h)
  | .vbool x, .vbool y => if h : x = y then .isTrue (by rw [h]) else .isFalse (fun he => h (PyVal.vbool.inj he))
  | .vbool x, .vint y => .isFalse (fun h => PyVal.noConfusion h)
  | .vbool x, .vstr y => .isFalse (fun h => PyVal.noConfusion h)
  | .vbool x, .vlist y => .isFalse (fun h => PyVal.noConfusion h)
  | .vbool x, .vtuple y => .isFalse (fun h => PyVal.noConfusion h)
  | .vbool x, .vdict y => .isFalse (fun h => PyVal.noConfusion h)
  | .vbool x, .vproxy y => .isFalse (fun h => PyVal.noConfusion h)
  | .vint x, .vnone => .isFalse (fun h => PyVal.noConfusion h)
  | .vint x, .vbool y => .isFalse (fun h => PyVal.noConfusion h)
  | .vint x, .vint y => if h : x = y then .isTrue (by rw [h]) else .isFalse (fun he => h (PyVal.vint.inj he))
  | .vint x, .vstr y => .isFalse (fun h => PyVal.noConfusion h)
  | .vint x, .vlist y => .isFalse (fun h => PyVal.noConfusion h)
  | .vint x, .vtuple y => .isFalse (fun h => PyVal.noConfusion h)
  | .vint x, .vdict y => .isFalse (fun h => PyVal.noConfusion h)
  | .vint x, .vproxy y => .isFalse (fun h => PyVal.noConfusion h)
  | .vstr x, .vnone => .isFalse (fun h => PyVal.noConfusion h)
  | .vstr x, .vbool y => .isFalse (fun h => PyVal.noConfusion h)
  | .vstr x, .vint y => .isFalse (fun h => PyVal.noConfusion h)
  | .vstr x, .vstr y => if h : x = y then .isTrue (by rw [h]) else .isFalse (fun he => h (PyVal.vstr.inj he))
  | .vstr x, .vlist y => .isFalse (fun h => PyVal.noConfusion h)
  | .vstr x, .vtuple y => .isFalse (fun h => PyVal.noConfusion h)
  | .vstr x, .vdict y => .isFalse (fun h => PyVal.noConfusion h)
  | .vstr x, .vproxy y => .isFalse (fun h => PyVal.noConfusion h)
  | .vlist x, .vnone => .isFalse (fun h => PyVal.noConfusion h)
  | .vlist x, .vbool y => .isFalse (fun h => PyVal.noConfusion h)
  | .vlist x, .vint y => .isFalse (fun h => PyVal.noConfusion h)
  | .vlist x, .vstr y => .isFalse (fun h => PyVal.noConfusion h)
  | .vlist x, .vlist y => match PyVal.decEqList x y with
    | .isTrue h => .isTrue (by rw [h])
    | .isFalse h => .isFalse (fun he => h (PyVal.vlist.inj he))
  | .vlist x, .vtuple y => .isFalse (fun h => PyVal.noConfusion h)
  | .vlist x, .vdict y => .isFalse (fun h => PyVal.noConfusion h)
  | .vlist x, .vproxy y => .isFalse (fun h => PyVal.noConfusion h)
  | .vtuple x, .vnone => .isFalse (fun h => PyVal.noConfusion h)
  | .vtuple x, .vbool y => .isFalse (fun h => PyVal.noConfusion h)
  | .vtuple x, .vint y => .isFalse (fun h => PyVal.noConfusion h)
  | .vtuple x, .vstr y => .isFalse (fun h => PyVal.noConfusion h)
  | .vtuple x, .vlist y => .isFalse (fun h => PyVal.noConfusion h)
  | .vtuple x, .vtuple y => match PyVal.decEqList x y with
    | .isTrue h => .isTrue (by rw [h])
    | .isFalse h => .isFalse (fun he => h (PyVal.vtuple.inj he))
  | .vtuple x, .vdict y => .isFalse (fun h => PyVal.noConfusion h)
  | .vtuple x, .vproxy y => .isFalse (fun h => PyVal.noConfusion h)
  | .vdict x, .vnone => .isFalse (fun h => PyVal.noConfusion h)
  | .vdict x, .vbool y => .isFalse (fun h => PyVal.noConfusion h)
  | .vdict x, .vint y => .isFalse (fun h => PyVal.noConfusion h)
  | .vdict x, .vstr y => .isFalse (fun h => PyVal.noConfusion h)
  | .vdict x, .vlist y => .isFalse (fun h => PyVal.noConfusion h)
  | .vdict x, .vtuple y => .isFalse (fun h => PyVal.noConfusion h)
  | .vdict x, .vdict y => match PyVal.decEqKvs x y with
    | .isTrue h => .isTrue (by rw [h])
    | .isFalse h => .isFalse (fun he => h (PyVal.vdict.inj he))
  | .vdict x, .vproxy y => .isFalse (fun h => PyVal.noConfusion h)
  | .vproxy x, .vnone => .isFalse (fun h => PyVal.noConfusion h)
  | .vproxy x, .vbool y => .isFalse (fun h => PyVal.noConfusion h)
  | .vproxy x, .vint y => .isFalse (fun h => PyVal.noConfusion h)
  | .vproxy x, .vstr y => .isFalse (fun h => PyVal.noConfusion h)
  | .vproxy x, .vlist y => .isFalse (fun h => PyVal.noConfusion h)
  | .vproxy x, .vtuple y => .isFalse (fun h => PyVal.noConfusion h)
  | .vproxy x, .vdict y => .isFalse (fun h => PyVal.noConfusion h)
  | .vproxy x, .vproxy y => match PyVal.decEqKvs x y with
    | .isTrue h => .isTrue (by rw [h])
    | .isFalse h => .isFalse (fun he => h (PyVal.vproxy.inj he))
def PyVal.decEqList : (as bs : List PyVal) → Decidable (as = bs)
  | [], [] => .isTrue rfl
  | [], _ :: _ => .isFalse (fun h => List.noConfusion h)
  | _ :: _, [] => .isFalse (fun h => List.noConfusion h)
  | a :: as, b :: bs =>
    match PyVal.decEq a b, PyVal.decEqList as bs with
    | .isTrue h1, .isTrue h2 => .isTrue (by rw [h1, h2])
    | .isFalse h1, _ => .isFalse (by intro he; injection he with hh ht; exact h1 hh)
    | _, .isFalse h2 => .isFalse (by intro he; injection he with hh ht; exact h2 ht)
def PyVal.decEqKvs : (as bs : List (String × PyVal)) → Decidable (as = bs)
  | [], [] => .isTrue rfl
  | [], _ :: _ => .isFalse (fun h => List.noConfusion h)
  | _ :: _, [] => .isFalse (fun h => List.noConfusion h)
  | (k, v) :: as, (k2, v2) :: bs =>
    match String.decEq k k2, PyVal.decEq v v2, PyVal.decEqKvs as bs with
    | .isTrue h0, .isTrue h1, .isTrue h2 => .isTrue (by rw [h0, h1, h2])
    | .isFalse h0, _, _ => .isFalse (by intro he; injection he with hh ht; injection hh with hk hv; exact h0 hk)
    | _, .isFalse h1, _ => .isFalse (by intro he; injection he with hh ht; injection hh with hk hv; exact h1 hv)
    | _, _, .isFalse h2 => .isFalse (by intro he; injection he with hh ht; exact h2 ht)
end

instance : DecidableEq PyVal := PyVal.decEq


/-- Python runtime types, as used by isinstance / type identity checks. -/
inductive PyType where
  | tnone
  | tbool
  | tint
  | tstr
  | tlist
  | ttuple
  | tdict
  | tproxy
deriving DecidableEq

/-- Runtime type of a value (Python `type(v)`). -/
def typeOf : PyVal → PyType
  | .vnone => .tnone
  | .vbool _ => .tbool
  | .vint _ => .tint
  | .vstr _ => .tstr
  | .vlist _ => .tlist
  | .vtuple _ => .ttuple
  | .vdict _ => .tdict
  | .vproxy _ => .tproxy

/-- Python `isinstance(v, t)`; `bool` is a subclass of `int`. -/
def isInstance (v : PyVal) (t : PyType) : Bool :=
  typeOf v == t || (t == .tint && typeOf v == .tbool)

/-- Python `copy.deepcopy`: on a value-semantics type a deep copy is the value
itself (it is structurally equal and shares no mutable state). -/
def deepcopy (v : PyVal) : PyVal := v

mutual
/-- utils._recursive_immutable_copy: list → tuple, dict → MappingProxyType,
recursively; every other value (tuples included) is deep-copied as is. -/
def recursive_immutable_copy : PyVal → PyVal
  | .vlist xs => .vtuple (ricList xs)
  | .vdict kvs => .vproxy (ricKvs kvs)
  | v => deepcopy v
def ricList : List PyVal → List PyVal
  | [] => []
  | v :: vs => recursive_immutable_copy v :: ricList vs
def ricKvs : List (String × PyVal) → List (String × PyVal)
  | [] => []
  | kv :: kvs => (kv.1, recursive_immutable_copy kv.2) :: ricKvs kvs
end

/-- utils._immutable_copy delegates to _recursive_immutable_copy (its
exception wrapping never fires on values of `PyVal`, which are all
deep-copyable). -/
def immutable_copy (v : PyVal) : PyVal := recursive_immutable_copy v

mutual
/-- A value is deeply frozen when it contains no mutable container (list or
dict) at any depth. -/
def isFrozen : PyVal → Bool
  | .vlist _ => false
  | .vdict _ => false
  | .vtuple xs => frozenList xs
  | .vproxy kvs => frozenKvs kvs
  | _ => true
def frozenList : List PyVal → Bool
  | [] => true
  | v :: vs => isFrozen v && frozenList vs
def frozenKvs : List (String × PyVal) → Bool
  | [] => true
  | kv :: kvs => isFrozen kv.2 && frozenKvs kvs
end

mutual
/-- A value built only of scalars, lists and dicts (no already-immutable
container anywhere) - the common shape of caller-supplied data. -/
def isPlainData : PyVal → Bool
  | .vtuple _ => false
  | .vproxy _ => false
  | .vlist xs => plainList xs
  | .vdict kvs => plainKvs kvs
  | _ => true
def plainList : List PyVal → Bool
  | [] => true
  | v :: vs => isPlainData v && plainList vs
def plainKvs : List (String × PyVal) → Bool
  | [] => true
  | kv :: kvs => isPlainData kv.2 && plainKvs kvs
end

/-! ## Stable serialization and checksums (utils.py) -/

/-- Python repr of a string key, as used by safe_key_func in
_stable_serialize_for_checksum (modelled for keys without quote or escape
characters: repr wraps the text in single quotes). -/
def safeKey (k : String) : String := "\x27" ++ k ++ "\x27"

/-- Lexicographic comparison of character lists by code point - the order
Python string comparison (and hence sorted() and json.dumps sort_keys)
uses. -/
def charsLe : List Char → List Char → Bool
  | [], _ => true
  | _ :: _, [] => false
  | a :: as, b :: bs =>
    if a < b then true
    else if b < a then false
    else charsLe as bs

/-- String comparison over the character data. -/
def strLe (a b : String) : Bool := charsLe a.data b.data

/-- Ordering of keys by their repr, the sort key used by
_stable_serialize_for_checksum. -/
def keyOrder (a b : String) : Prop := strLe (safeKey a) (safeKey b) = true

instance : DecidableRel keyOrder := fun a b =>
  inferInstanceAs (Decidable (_ = true))

/-- First-match association-list lookup with string keys (Python dict access,
insertion order preserved elsewhere). -/
def alookup {β : Type} (k : String) : List (String × β) → Option β
  | [] => none
  | (a, b) :: t => if a = k then some b else alookup k t

/-- Python dict assignment d[k] = v: replace in place when the key is
present, else append at the end (insertion order semantics). -/
def dictSet {β : Type} (kvs : List (String × β)) (k : String) (v : β) :
    List (String × β) :=
  if (alookup k kvs).isSome then
    kvs.map (fun kv => if kv.1 = k then (k, v) else kv)
  else kvs ++ [(k, v)]

/-- Python dict deletion d.pop(k): drop the entry for k. -/
def dictRemove {β : Type} (kvs : List (String × β)) (k : String) :
    List (String × β) :=
  kvs.filter (fun kv => decide ¬(kv.1 = k))

mutual
/-- Whether json.dumps accepts the value: everything except a
MappingProxyType (anywhere in the structure) is serializable; tuples are
serialized as JSON arrays, exactly like lists. -/
def jsonable : PyVal → Bool
  | .vproxy _ => false
  | .vlist xs => jsonableList xs
  | .vtuple xs => jsonableList xs
  | .vdict kvs => jsonableKvs kvs
  | _ => true
def jsonableList : List PyVal → Bool
  | [] => true
  | v :: vs => jsonable v && jsonableList vs
def jsonableKvs : List (String × PyVal) → Bool
  | [] => true
  | kv :: kvs => jsonable kv.2 && jsonableKvs kvs
end

mutual
/-- Compact json.dumps (separators (",", ":")) of a serializable value.
Tuples and lists produce the same JSON array text.  String escaping is
elided (modelled for strings without quotes or backslashes). -/
def jsonDumps : PyVal → String
  | .vnone => "null"
  | .vbool b => if b then "true" else "false"
  | .vint n => toString n
  | .vstr s => "\"" ++ s ++ "\""
  | .vlist xs => "[" ++ jsonDumpsList xs ++ "]"
  | .vtuple xs => "[" ++ jsonDumpsList xs ++ "]"
  | .vdict kvs => "\x7b" ++ jsonDumpsKvs kvs ++ "\x7d"
  | .vproxy _ => "<unserializable>"
def jsonDumpsList : List PyVal → String
  | [] => ""
  | [v] => jsonDumps v
  | v :: vs => jsonDumps v ++ "," ++ jsonDumpsList vs
def jsonDumpsKvs : List (String × PyVal) → String
  | [] => ""
  | [(k, v)] => "\"" ++ k ++ "\":" ++ jsonDumps v
  | (k, v) :: kvs => "\"" ++ k ++ "\":" ++ jsonDumps v ++ "," ++ jsonDumpsKvs kvs
end

mutual
/-- Python repr of a value (modelled: container shapes are exact, string
escaping elided).  Used as the serialization fallback for values json.dumps
rejects. -/
def pyRepr : PyVal → String
  | .vnone => "None"
  | .vbool b => if b then "True" else "False"
  | .vint n => toString n
  | .vstr s => "\x27" ++ s ++ "\x27"
  | .vlist xs => "[" ++ pyReprList xs ++ "]"
  | .vtuple xs => "(" ++ pyReprList xs ++ ")"
  | .vdict kvs => "\x7b" ++ pyReprKvs kvs ++ "\x7d"
  | .vproxy kvs => "mappingproxy(\x7b" ++ pyReprKvs kvs ++ "\x7d)"
def pyReprList : List PyVal → String
  | [] => ""
  | [v] => pyRepr v
  | v :: vs => pyRepr v ++ ", " ++ pyReprList vs
def pyReprKvs : List (String × PyVal) → String
  | [] => ""
  | [(k, v)] => "\x27" ++ k ++ "\x27: " ++ pyRepr v
  | (k, v) :: kvs => "\x27" ++ k ++ "\x27: " ++ pyRepr v ++ ", " ++ pyReprKvs kvs
end

/-- One serialized entry of _stable_serialize_for_checksum: the value itself
when json.dumps accepts it, else its repr string; either way it is rendered
into the final compact JSON dump. -/
def serializeEntry (v : PyVal) : String :=
  if jsonable v then jsonDumps v else jsonDumps (.vstr (pyRepr v))

/-- Keys of the mapping sorted by their repr (Python
sorted(data.keys(), key=safe_key_func); the final json.dumps with
sort_keys=True orders the repr keys the same way). -/
def sortedKeys (data : List (String × PyVal)) : List String :=
  List.insertionSort keyOrder (data.map Prod.fst)

/-- utils._stable_serialize_for_checksum: canonical serialization of a
mapping - entries (repr key, serialized value) in sorted key order.  The
final json.dumps rendering of this object is modelled by the list itself
(that rendering is injective on distinct key or value strings). -/
def stable_serialize_for_checksum (data : List (String × PyVal)) :
    List (String × String) :=
  (sortedKeys data).map (fun k => (safeKey k, serializeEntry ((alookup k data).getD .vnone)))

/-- A checksum: the sha256 hexdigest is modelled as the canonical
serialization itself (injective-hash idealization). -/
abbrev Checksum := List (String × String)

/-- utils._checksum_of_config. -/
def checksum_of_config (snapshot : List (String × PyVal)) : Checksum :=
  stable_serialize_for_checksum snapshot

/-- Out-of-band environment signals: ALLOW_CONFIG_BYPASS == "1" and the
optional CONFIG_HMAC_KEY sealing secret. -/
structure Env where
  allow_config_bypass : Bool
  hmac_key : Option String
deriving DecidableEq

/-- utils._require_bypass_env. -/
def require_bypass_env (env : Env) : Bool := env.allow_config_bypass

/-- A sealed checksum: HMAC is modelled as injective tagging of the digest
with the key (no key: the digest is used unsealed). -/
abbrev SealedChecksum := Option String × Checksum

/-- IntegrityGuard.seal_checksum. -/
def seal_checksum (env : Env) (c : Checksum) : SealedChecksum :=
  match env.hmac_key with
  | none => (none, c)
  | some k => (some k, c)

/-! ## Errors, parameter specs and the registry (exceptions.py, params/) -/

/-- The exception kinds the modelled operations can raise.
validationError carries the per-key error mapping of ConfigValidationError;
notFoundError the mapping carried by ConfigNotFoundError; valueError the
message of a plain ValueError raised inside ConfigStore.set. -/
inductive CgError where
  | validationError (errors : List (String × String))
  | notFoundError (errors : List (String × String))
  | lockedError
  | bypassError
  | tornDownError
  | valueError (msg : String)
deriving DecidableEq

instance instDecEqExcept {e a : Type} [DecidableEq e] [DecidableEq a] :
    DecidableEq (Except e a) := fun x y =>
  match x, y with
  | .ok u, .ok v =>
    if h : u = v then .isTrue (by rw [h]) else .isFalse (fun he => h (Except.ok.inj he))
  | .error u, .error v =>
    if h : u = v then .isTrue (by rw [h]) else .isFalse (fun he => h (Except.error.inj he))
  | .ok _, .error _ => .isFalse (fun h => Except.noConfusion h)
  | .error _, .ok _ => .isFalse (fun h => Except.noConfusion h)

/-- params/spec.py ParamSpec.  The custom validator is a total boolean
predicate (a validator that raises is observationally a validator returning
false, with a different message). -/
structure ParamSpec where
  name : String
  default : PyVal
  value_type : List PyType
  validator : Option (PyVal → Bool) := none
  bounds : Option (Int × Int) := none
  allow_none : Bool := true
  require_reason : Bool := false

/-- ParamSpec._bounds_check: length range for sized values (str, list,
tuple, dict - not MappingProxyType), numeric range for int/float (bool is an
int), everything else passes. -/
def ParamSpec.boundsCheck (spec : ParamSpec) (v : PyVal) : Bool :=
  match spec.bounds with
  | none => true
  | some (lo, hi) =>
    match v with
    | .vstr s => decide (lo ≤ (s.length : Int) ∧ (s.length : Int) ≤ hi)
    | .vlist xs => decide (lo ≤ (xs.length : Int) ∧ (xs.length : Int) ≤ hi)
    | .vtuple xs => decide (lo ≤ (xs.length : Int) ∧ (xs.length : Int) ≤ hi)
    | .vdict kvs => decide (lo ≤ (kvs.length : Int) ∧ (kvs.length : Int) ≤ hi)
    | .vint n => decide (lo ≤ n ∧ n ≤ hi)
    | .vbool b => decide (lo ≤ (if b then (1 : Int) else 0) ∧ (if b then (1 : Int) else 0) ≤ hi)
    | _ => true

/-- ParamSpec.validate: None short-circuits on allow_none; then the
isinstance check against value_type, the bounds check, and the custom
validator, first failure wins. -/
def ParamSpec.validate (spec : ParamSpec) (v : PyVal) : Except CgError Unit :=
  match v with
  | .vnone =>
    if spec.allow_none then .ok ()
    else .error (.validationError [(spec.name, "None value not allowed.")])
  | _ =>
    if ¬ spec.value_type.any (fun t => isInstance v t) then
      .error (.validationError [(spec.name, "Expected value_type mismatch.")])
    else if ¬ spec.boundsCheck v then
      .error (.validationError [(spec.name, "Value out of bounds.")])
    else
      match spec.validator with
      | some f =>
        if f v then .ok ()
        else .error (.validationError [(spec.name, "Custom validator returned False.")])
      | none => .ok ()

/-- params/registry.py ParamRegistry: canonical name → spec, alias →
canonical name. -/
structure Registry where
  specs : List (String × ParamSpec)
  aliases : List (String × String) := []

/-- Whitespace trimming over a character list (Python str.strip). -/
def trimChars (cs : List Char) : List Char :=
  ((cs.dropWhile (fun c => c.isWhitespace)).reverse.dropWhile
    (fun c => c.isWhitespace)).reverse

/-- ParamRegistry._canon: trim then uppercase (implemented over the
character list; String.trim/String.toUpper in core do not reduce in the
kernel). -/
def canon (s : String) : String := String.mk ((trimChars s.data).map Char.toUpper)

/-- params resolve_param_name / ParamRegistry._resolve_key for string keys:
canonical match first, then alias, else ConfigNotFoundError. -/
def resolve_param_name (reg : Registry) (key : String) : Except CgError String :=
  let k := canon key
  if (alookup k reg.specs).isSome then .ok k
  else
    match alookup k reg.aliases with
    | some tgt => .ok tgt
    | none => .error (.notFoundError [(k, "Unknown configuration parameter.")])

/-- params.get_param_spec: fast path through the canonicalized key, falling
back to full resolution. -/
def get_param_spec (reg : Registry) (key : String) : Except CgError ParamSpec :=
  match alookup (canon key) reg.specs with
  | some s => .ok s
  | none =>
    match resolve_param_name reg key with
    | .ok n =>
      match alookup n reg.specs with
      | some s => .ok s
      | none => .error (.notFoundError [(canon key, "Unknown configuration parameter.")])
    | .error e => .error e

/-- validation/base.py ConfigValidator.validate_value: resolve the key
(propagating ConfigNotFoundError), fetch the spec and run ParamSpec.validate,
re-raising its error mapping. -/
def validate_value (reg : Registry) (key : String) (v : PyVal) : Except CgError Unit :=
  match resolve_param_name reg key with
  | .error e => .error e
  | .ok name =>
    match get_param_spec reg name with
    | .error e => .error e
    | .ok spec => spec.validate v

/-! ## The store (store/manager.py) -/

/-- ConfigStore state: the permanent layer, the use-once (ephemeral) layer,
and the allow_mutable_types flag.  The persistence adapter and audit history
are absent (None) in every AppConfig-owned store. -/
structure StoreState where
  config : List (String × PyVal)
  use_once : List (String × PyVal)
  mutable_types : Bool
deriving DecidableEq

/-- ConfigStore._check_type: when the permanent layer already holds a value
and type drift is disallowed, the new value must have exactly the type of
the stored value or one of the spec types. -/
def ConfigStore_check_type (st : StoreState) (name : String) (value : PyVal)
    (spec : ParamSpec) : Except CgError Unit :=
  match alookup name st.config with
  | some existing =>
    if st.mutable_types then .ok ()
    else if typeOf value ∈ spec.value_type ++ [typeOf existing] then .ok ()
    else .error (.valueError ("Cannot change value_type of config key " ++ name))
  | none => .ok ()

/-- ConfigStore._check_bounds: numeric values only (bool is an int). -/
def ConfigStore_check_bounds (spec : ParamSpec) (value : PyVal) : Except CgError Unit :=
  match spec.bounds with
  | none => .ok ()
  | some (lo, hi) =>
    match value with
    | .vint n =>
      if lo ≤ n ∧ n ≤ hi then .ok ()
      else .error (.valueError ("Value out of bounds for config key " ++ spec.name))
    | .vbool b =>
      if lo ≤ (if b then (1 : Int) else 0) ∧ (if b then (1 : Int) else 0) ≤ hi then .ok ()
      else .error (.valueError ("Value out of bounds for config key " ++ spec.name))
    | _ => .ok ()

/-- ConfigStore.set: resolve name and spec, require a reason when the spec
demands one (a plain ValueError), freeze the value, re-check type stability,
bounds and the full spec contract, then commit into the chosen layer.
History recording is best-effort and has no effect on the store. -/
def ConfigStore_set (reg : Registry) (st : StoreState) (key : String) (value : PyVal)
    (permanent : Bool) (reason : String) : Except CgError StoreState :=
  match resolve_param_name reg key with
  | .error e => .error e
  | .ok name =>
  match get_param_spec reg name with
  | .error e => .error e
  | .ok spec =>
  if spec.require_reason ∧ reason = "" then
    .error (.valueError ("Setting config key " ++ name ++ " requires a reason"))
  else
    match ConfigStore_check_type st name (immutable_copy value) spec with
    | .error e => .error e
    | .ok _ =>
    match ConfigStore_check_bounds spec (immutable_copy value) with
    | .error e => .error e
    | .ok _ =>
    match spec.validate (immutable_copy value) with
    | .error e => .error e
    | .ok _ =>
      if permanent then
        .ok { st with config := dictSet st.config name (immutable_copy value) }
      else
        .ok { st with use_once := dictSet st.use_once name (immutable_copy value) }

/-- ConfigStore.get: pop-and-return a deep copy of the ephemeral entry if
present, else a deep copy of the permanent value or the default. -/
def ConfigStore_get (reg : Registry) (st : StoreState) (key : String) (default : PyVal) :
    Except CgError (PyVal × StoreState) :=
  match resolve_param_name reg key with
  | .error e => .error e
  | .ok name =>
    match alookup name st.use_once with
    | some v => .ok (deepcopy v, { st with use_once := dictRemove st.use_once name })
    | none => .ok (deepcopy ((alookup name st.config).getD default), st)

/-- ConfigStore.snapshot_internal: a defensive deep copy of the permanent
layer. -/
def ConfigStore_snapshot_internal (st : StoreState) : List (String × PyVal) :=
  st.config.map (fun kv => (kv.1, deepcopy kv.2))

/-- ConfigStore.restore: wholesale replacement of the permanent layer with
frozen copies; the ephemeral layer is cleared. -/
def ConfigStore_restore (st : StoreState) (values : List (String × PyVal)) : StoreState :=
  { st with
    config := values.map (fun kv => (kv.1, immutable_copy kv.2)),
    use_once := [] }

/-- ConfigStore.clear: empties both layers. -/
def ConfigStore_clear (st : StoreState) : StoreState :=
  { st with config := [], use_once := [] }

/-! ## Integrity guard (integrity.py) -/

/-- IntegrityGuard state: last committed snapshot and its sealed checksum.
The background checker thread only reads this state. -/
structure IntegrityState where
  last_snapshot : Option (List (String × PyVal))
  last_checksum : Option SealedChecksum
deriving DecidableEq

/-- IntegrityGuard.update_snapshot: deep-copy the mapping, checksum its
canonical serialization, seal and store both. -/
def IntegrityGuard_update_snapshot (env : Env) (snapshot : List (String × PyVal)) :
    IntegrityState :=
  let snap := snapshot.map (fun kv => (kv.1, deepcopy kv.2))
  { last_snapshot := some snap,
    last_checksum := some (seal_checksum env (checksum_of_config snap)) }

/-- IntegrityGuard.verify: false when no snapshot or checksum is held - and,
because Python truthiness treats an empty dict as absent, also false when the
last snapshot is the empty mapping; otherwise recompute and compare. -/
def IntegrityGuard_verify (env : Env) (ig : IntegrityState) : Bool :=
  match ig.last_snapshot, ig.last_checksum with
  | some snap, some c =>
    if snap.isEmpty then false
    else decide (seal_checksum env (checksum_of_config snap) = c)
  | _, _ => false

/-- IntegrityGuard.clear: discard snapshot and checksum. -/
def IntegrityGuard_clear : IntegrityState :=
  { last_snapshot := none, last_checksum := none }

/-! ## Lock guard (locks.py) -/

/-- LockGuard.unlock: bypass with the environment signal unlocks; bypass
without it raises ConfigBypassError; otherwise an unlocked guard is left
unlocked and a locked guard only warns and stays locked. -/
def LockGuard_unlock (env : Env) (locked : Bool) (bypass : Bool) : Except CgError Bool :=
  if bypass ∧ require_bypass_env env then .ok false
  else if bypass ∧ ¬ require_bypass_env env then .error .bypassError
  else if ¬ locked then .ok locked
  else .ok locked

/-- LockGuard.ensure_unlocked: ConfigLockedError when locked without bypass;
ConfigBypassError when bypassing without the environment signal. -/
def LockGuard_ensure_unlocked (env : Env) (locked : Bool) (bypass : Bool) :
    Except CgError Unit :=
  if locked ∧ ¬ bypass then .error .lockedError
  else if bypass ∧ ¬ require_bypass_env env then .error .bypassError
  else .ok ()

/-! ## The AppConfig facade (config.py) -/

/-- AppConfig state: lifecycle flag, lock guard flag, the store, the
integrity guard and the number of registered post-update hooks (the facade
always builds its HookBus with failure_mode "ignore", so hook bodies can
never abort or mutate a committed change; only their registration count is
modelled). -/
structure ConfigState where
  torn_down : Bool
  locked : Bool
  store : StoreState
  integrity : IntegrityState
  hooks : Nat
deriving DecidableEq

/-- Tagging of a ConfigValidationError mapping into the aggregate errors
dict: errors[err_key] = "[context] msg" for each entry. -/
def addErrors (ctx : String) (errors : List (String × String)) :
    List (String × String) → List (String × String)
  | [] => errors
  | (k, m) :: rest => addErrors ctx (dictSet errors k ("[" ++ ctx ++ "] " ++ m)) rest

/-- The loop of AppConfig._validate_and_resolve.  resolve_param_name runs
outside the per-key try block, so an unknown key raises immediately,
discarding errors already collected; a ConfigValidationError from validation
is aggregated and the loop continues. -/
def varLoop (reg : Registry) (bypass : Bool) (ctx : String) :
    List (String × PyVal) → List (String × String) → List (String × PyVal) →
    Except CgError (List (String × String) × List (String × PyVal))
  | [], errors, resolved => .ok (errors, resolved)
  | (k, v) :: rest, errors, resolved =>
    match resolve_param_name reg k with
    | .error e => .error e
    | .ok param =>
      if bypass then
        varLoop reg bypass ctx rest errors (dictSet resolved param (immutable_copy v))
      else
        match validate_value reg param v with
        | .ok _ =>
          varLoop reg bypass ctx rest errors (dictSet resolved param (immutable_copy v))
        | .error (.validationError errs) =>
          varLoop reg bypass ctx rest (addErrors ctx errors errs) resolved
        | .error e => .error e

/-- AppConfig._validate_and_resolve: run the loop, then raise one
ConfigValidationError with the aggregated mapping if any key failed. -/
def AppConfig_validate_and_resolve (reg : Registry) (bypass : Bool) (ctx : String)
    (input : List (String × PyVal)) : Except CgError (List (String × PyVal)) :=
  match varLoop reg bypass ctx input [] [] with
  | .error e => .error e
  | .ok (errors, resolved) =>
    if errors.isEmpty then .ok resolved else .error (.validationError errors)

/-- The loop of AppConfig._apply_changes over ConfigStore.set.  Note that the
reason given to update()/use_once() is NOT forwarded: every store write runs
with reason = "" exactly as in the source. -/
def ConfigStore_set_all (reg : Registry) (st : StoreState) :
    List (String × PyVal) → Bool → Except CgError StoreState
  | [], _ => .ok st
  | (k, v) :: rest, permanent =>
    match ConfigStore_set reg st k v permanent "" with
    | .error e => .error e
    | .ok st2 => ConfigStore_set_all reg st2 rest permanent

/-- AppConfig._apply_changes: write every change, then reseal integrity from
a fresh internal snapshot and run the hooks (which cannot alter state). -/
def AppConfig_apply_changes (env : Env) (reg : Registry) (s : ConfigState)
    (changes : List (String × PyVal)) (permanent : Bool) :
    Except CgError ConfigState :=
  match ConfigStore_set_all reg s.store changes permanent with
  | .error e => .error e
  | .ok st2 =>
    .ok { s with
          store := st2,
          integrity := IntegrityGuard_update_snapshot env (ConfigStore_snapshot_internal st2) }

/-- AppConfig.update: torn-down guard, lock gate, aggregate validation, then
permanent commit of the batch. -/
def AppConfig_update (env : Env) (reg : Registry) (s : ConfigState)
    (bypass : Bool) (reason : String) (kwargs : List (String × PyVal)) :
    Except CgError ConfigState :=
  if s.torn_down then .error .tornDownError
  else
    match LockGuard_ensure_unlocked env s.locked bypass with
    | .error e => .error e
    | .ok _ =>
      match AppConfig_validate_and_resolve reg bypass "update" kwargs with
      | .error e => .error e
      | .ok resolved => AppConfig_apply_changes env reg s resolved true

/-- AppConfig.use_once: the same pipeline committing to the ephemeral layer. -/
def AppConfig_use_once (env : Env) (reg : Registry) (s : ConfigState)
    (bypass : Bool) (reason : String) (kwargs : List (String × PyVal)) :
    Except CgError ConfigState :=
  if s.torn_down then .error .tornDownError
  else
    match LockGuard_ensure_unlocked env s.locked bypass with
    | .error e => .error e
    | .ok _ =>
      match AppConfig_validate_and_resolve reg bypass "use_once" kwargs with
      | .error e => .error e
      | .ok resolved => AppConfig_apply_changes env reg s resolved false

/-- AppConfig.get: torn-down guard, resolve, default to a frozen copy of the
spec default when none is supplied, then ConfigStore.get (which consumes an
ephemeral entry).  Returns the value and the possibly-consumed state. -/
def AppConfig_get (reg : Registry) (s : ConfigState) (key : String)
    (default : Option PyVal) : Except CgError (PyVal × ConfigState) :=
  if s.torn_down then .error .tornDownError
  else
    match resolve_param_name reg key with
    | .error e => .error e
    | .ok name =>
      match get_param_spec reg name with
      | .error e => .error e
      | .ok spec =>
        let d := match default with
                 | none => immutable_copy spec.default
                 | some d => d
        match ConfigStore_get reg s.store name d with
        | .error e => .error e
        | .ok (v, st2) => .ok (v, { s with store := st2 })

/-- AppConfig.snapshot (snapshot_public as a plain mapping; the
MappingProxyType wrapper adds no content). -/
def AppConfig_snapshot (s : ConfigState) : Except CgError (List (String × PyVal)) :=
  if s.torn_down then .error .tornDownError
  else .ok (ConfigStore_snapshot_internal s.store)

/-- AppConfig.restore_from_snapshot: torn-down guard; the empty mapping is a
no-op before the lock gate; otherwise validate the whole mapping, replace the
permanent layer wholesale and reseal. -/
def AppConfig_restore_from_snapshot (env : Env) (reg : Registry) (s : ConfigState)
    (snapshot : List (String × PyVal)) (bypass : Bool) : Except CgError ConfigState :=
  if s.torn_down then .error .tornDownError
  else if snapshot.isEmpty then .ok s
  else
    match LockGuard_ensure_unlocked env s.locked bypass with
    | .error e => .error e
    | .ok _ =>
      match AppConfig_validate_and_resolve reg bypass "restore_from_snapshot" snapshot with
      | .error e => .error e
      | .ok resolved =>
        let st2 := ConfigStore_restore s.store resolved
        .ok { s with
              store := st2,
              integrity := IntegrityGuard_update_snapshot env (ConfigStore_snapshot_internal st2) }

/-- AppConfig.lock: no torn-down guard in the source; always succeeds. -/
def AppConfig_lock (s : ConfigState) : Except CgError ConfigState :=
  .ok { s with locked := true }

/-- AppConfig.unlock: delegates to LockGuard.unlock; no torn-down guard. -/
def AppConfig_unlock (env : Env) (s : ConfigState) (bypass : Bool) :
    Except CgError ConfigState :=
  match LockGuard_unlock env s.locked bypass with
  | .error e => .error e
  | .ok l => .ok { s with locked := l }

/-- AppConfig.register_post_update_hook (is_torn_down guarded; the HookBus
callable check is outside the model since hook bodies are not modelled). -/
def AppConfig_register_post_update_hook (s : ConfigState) : Except CgError ConfigState :=
  if s.torn_down then .error .tornDownError
  else .ok { s with hooks := s.hooks + 1 }

/-- AppConfig.teardown: one-way transition, clears store, hooks and
integrity state; a total function - it never raises. -/
def AppConfig_teardown (s : ConfigState) : ConfigState :=
  { s with
    torn_down := true,
    store := ConfigStore_clear s.store,
    hooks := 0,
    integrity := IntegrityGuard_clear }

/-- AppConfig.verify_integrity: callable in every state. -/
def AppConfig_verify_integrity (env : Env) (s : ConfigState) : Bool :=
  IntegrityGuard_verify env s.integrity

/-- AppConfig.temp_update.  The body is an arbitrary state transformer that
may itself end in an exception (some error).  The entry phase captures the
prior snapshot and prior checksum; the finally clause restores the permanent
layer from the prior snapshot, reseals from it, and then reinstates the
captured checksum verbatim when one was present (Python: `if prior_checksum`).
A failure in the entry phase leaves only store/integrity effects that the
finally clause overwrites, so it is modelled as the unchanged state paired
with the exception.  There is no torn-down guard and no lock gate in the
source. -/
def AppConfig_temp_update (env : Env) (reg : Registry) (bypass : Bool)
    (kwargs : List (String × PyVal))
    (body : ConfigState → ConfigState × Option CgError)
    (s : ConfigState) : ConfigState × Option CgError :=
  let prior_config := ConfigStore_snapshot_internal s.store
  let prior_checksum := s.integrity.last_checksum
  let afterTry : ConfigState × Option CgError :=
    match AppConfig_validate_and_resolve reg bypass "temp_update" kwargs with
    | .error e => (s, some e)
    | .ok resolved =>
      match AppConfig_apply_changes env reg s resolved true with
      | .error e => (s, some e)
      | .ok s1 => body s1
  let sEnd := afterTry.1
  let ig1 := IntegrityGuard_update_snapshot env prior_config
  let ig2 := match prior_checksum with
             | some c => { ig1 with last_checksum := some c }
             | none => ig1
  ({ sEnd with store := ConfigStore_restore sEnd.store prior_config, integrity := ig2 },
   afterTry.2)

/-- The per-parameter initialization loop of AppConfig.__init__ (no startup
bypass): freeze the initial or default value, validate it, and write it
permanently - again with reason "". -/
def initAll (reg : Registry) (initial : List (String × PyVal)) :
    StoreState → List (String × ParamSpec) → Except CgError StoreState
  | st, [] => .ok st
  | st, (name, spec) :: rest =>
    let val := immutable_copy ((alookup name initial).getD spec.default)
    match validate_value reg name val with
    | .error e => .error e
    | .ok _ =>
      match ConfigStore_set reg st name val true "" with
      | .error e => .error e
      | .ok st2 => initAll reg initial st2 rest

/-- AppConfig.__init__ with allow_mutable_types=False, immutable=False and no
startup bypass: initialize every registered parameter, then take the initial
integrity snapshot. -/
def AppConfig_init (env : Env) (reg : Registry) (initial : List (String × PyVal)) :
    Except CgError ConfigState :=
  match initAll reg initial { config := [], use_once := [], mutable_types := false } reg.specs with
  | .error e => .error e
  | .ok st =>
    .ok { torn_down := false,
          locked := false,
          store := st,
          integrity := IntegrityGuard_update_snapshot env (ConfigStore_snapshot_internal st),
          hooks := 0 }

/-- Whether an operation returned normally. -/
def exceptIsOk {e a : Type} : Except e a → Bool
  | .ok _ => true
  | .error _ => false

/-! ## Concrete environments, registries and reachable states used by the
witnesses and counterexamples -/

/-- Environment without the bypass signal and without a sealing key. -/
def env0 : Env := { allow_config_bypass := false, hmac_key := none }

/-- Environment with ALLOW_CONFIG_BYPASS=1 and no sealing key. -/
def envB : Env := { allow_config_bypass := true, hmac_key := none }

/-- Fallback state used only in unreachable extraction branches. -/
def badState : ConfigState :=
  { torn_down := true, locked := false,
    store := { config := [], use_once := [], mutable_types := false },
    integrity := IntegrityGuard_clear, hooks := 0 }

/-- Registry with a single boolean parameter VERIFY, default True. -/
def regV : Registry :=
  { specs := [("VERIFY", { name := "VERIFY", default := .vbool true, value_type := [.tbool] })] }

/-- Freshly constructed AppConfig over regV. -/
def sV : ConfigState :=
  match AppConfig_init env0 regV [] with
  | .ok s => s
  | .error _ => badState

/-- Registry with no parameters at all. -/
def regE : Registry := { specs := [] }

/-- Freshly constructed AppConfig over the empty registry. -/
def sE : ConfigState :=
  match AppConfig_init env0 regE [] with
  | .ok s => s
  | .error _ => badState

/-- Registry with DEPLOY_ENV, a string parameter whose spec demands a
justification for every write (require_reason=True). -/
def regR : Registry :=
  { specs := [("DEPLOY_ENV",
      { name := "DEPLOY_ENV", default := .vstr "dev", value_type := [.tstr],
        require_reason := true })] }

/-- A live AppConfig state over regR holding the default value (built
directly: AppConfig.__init__ itself already raises for such a spec, which
the C3 theorem also records). -/
def sR : ConfigState :=
  { torn_down := false, locked := false,
    store := { config := [("DEPLOY_ENV", .vstr "dev")], use_once := [], mutable_types := false },
    integrity := IntegrityGuard_update_snapshot env0 [("DEPLOY_ENV", .vstr "dev")],
    hooks := 0 }

/-- Registry with A, an integer parameter with bounds (1, 100). -/
def regA : Registry :=
  { specs := [("A",
      { name := "A", default := .vint 1, value_type := [.tint], bounds := some (1, 100) })] }

/-- Freshly constructed AppConfig over regA. -/
def sA : ConfigState :=
  match AppConfig_init env0 regA [] with
  | .ok s => s
  | .error _ => badState

/-- Registry with ITEMS, accepting lists and tuples, default the empty
tuple. -/
def regI : Registry :=
  { specs := [("ITEMS",
      { name := "ITEMS", default := .vtuple [], value_type := [.tlist, .ttuple] })] }

/-- Freshly constructed AppConfig over regI. -/
def sI : ConfigState :=
  match AppConfig_init env0 regI [] with
  | .ok s => s
  | .error _ => badState

/-- Registry with two integer parameters A and B. -/
def regAB : Registry :=
  { specs := [("A", { name := "A", default := .vint 0, value_type := [.tint] }),
              ("B", { name := "B", default := .vint 0, value_type := [.tint] })] }

/-- Freshly constructed AppConfig over regAB. -/
def sAB : ConfigState :=
  match AppConfig_init env0 regAB [] with
  | .ok s => s
  | .error _ => badState

/-- A temp_update body that raises immediately. -/
def raisingBody : ConfigState → ConfigState × Option CgError :=
  fun s => (s, some (.valueError "inner body raised"))

/-- The inner of the two nested temp_updates of the LIFO scenario: it sets
VERIFY back to True and its body raises. -/
def innerTemp : ConfigState → ConfigState × Option CgError :=
  fun s => AppConfig_temp_update env0 regV false [("VERIFY", PyVal.vbool true)] raisingBody s

/-- The outer temp_update body of the LIFO scenario: it runs the inner
temp_update and catches the exception the inner body raised. -/
def outerBody : ConfigState → ConfigState × Option CgError :=
  fun s => ((innerTemp s).1, none)

/-- The state after use_once(ITEMS=[1]) on sI. -/
def sI1 : ConfigState :=
  match AppConfig_use_once env0 regI sI false "" [("ITEMS", PyVal.vlist [PyVal.vint 1])] with
  | .ok s => s
  | .error _ => badState

/-- The state inside the outer temp_update of the LIFO scenario: sV with the
temporary VERIFY=False applied (entry phase of temp_update). -/
def midOuter : ConfigState :=
  match AppConfig_validate_and_resolve regV false "temp_update" [("VERIFY", PyVal.vbool false)] with
  | .error _ => badState
  | .ok resolved =>
    match AppConfig_apply_changes env0 regV sV resolved true with
    | .error _ => badState
    | .ok s => s


/-! ## Shared lemmas -/

/-- Strings with equal character data are equal. -/
theorem string_ext {a b : String} (h : a.data = b.data) : a = b := by
  cases a; cases b; exact congrArg String.mk h

/-- charsLe is total. -/
theorem charsLe_total : ∀ as bs : List Char, charsLe as bs = true ∨ charsLe bs as = true := by
  intro as
  induction as with
  | nil => intro bs; left; rfl
  | cons a as ih =>
    intro bs
    cases bs with
    | nil => right; rfl
    | cons b bs =>
      by_cases h1 : a < b
      · left; simp [charsLe, h1]
      · by_cases h2 : b < a
        · right; simp [charsLe, h2]
        · rcases ih bs with h | h
          · left; simp [charsLe, h1, h2, h]
          · right; simp [charsLe, h1, h2, h]

/-- charsLe is transitive. -/
theorem charsLe_trans : ∀ as bs cs : List Char,
    charsLe as bs = true → charsLe bs cs = true → charsLe as cs = true := by
  intro as
  induction as with
  | nil => intro bs cs _ _; rfl
  | cons a as ih =>
    intro bs cs hab hbc
    cases bs with
    | nil => simp [charsLe] at hab
    | cons b bs =>
      cases cs with
      | nil => simp [charsLe] at hbc
      | cons c cs =>
        simp only [charsLe] at hab hbc ⊢
        by_cases h1 : a < b
        · by_cases h2 : b < c
          · simp [lt_trans h1 h2]
          · by_cases h3 : c < b
            · simp [charsLe, h2, h3] at hbc
            · have hcb : b = c := le_antisymm (not_lt.mp h3) (not_lt.mp h2)
              simp [hcb ▸ h1]
        · by_cases h1b : b < a
          · simp [h1, h1b] at hab
          · have hab2 : a = b := le_antisymm (not_lt.mp h1b) (not_lt.mp h1)
            subst hab2
            by_cases h2 : a < c
            · simp [h2]
            · by_cases h3 : c < a
              · simp [h2, h3] at hbc
              · simp [h1, h2, h3] at hab hbc ⊢
                exact ih bs cs hab hbc

/-- charsLe is antisymmetric. -/
theorem charsLe_antisymm : ∀ as bs : List Char,
    charsLe as bs = true → charsLe bs as = true → as = bs := by
  intro as
  induction as with
  | nil => intro bs _ hba; cases bs with
    | nil => rfl
    | cons b bs => simp [charsLe] at hba
  | cons a as ih =>
    intro bs hab hba
    cases bs with
    | nil => simp [charsLe] at hab
    | cons b bs =>
      by_cases h1 : a < b
      · simp [charsLe, h1, asymm h1] at hba
      · by_cases h2 : b < a
        · simp [charsLe, h1, h2] at hab
        · have he : a = b := le_antisymm (not_lt.mp h2) (not_lt.mp h1)
          subst he
          simp only [charsLe, h1, if_neg, lt_irrefl, if_false] at hab hba
          rw [ih bs hab hba]

/-- The repr of a key determines the key. -/
theorem safeKey_inj : ∀ a b : String, safeKey a = safeKey b → a = b := by
  intro a b h
  have hd : (safeKey a).data = (safeKey b).data := by rw [h]
  simp only [safeKey, String.data_append] at hd
  simp at hd
  exact string_ext hd

instance : IsTotal String keyOrder :=
  ⟨fun a b => charsLe_total (safeKey a).data (safeKey b).data⟩

instance : IsTrans String keyOrder :=
  ⟨fun _ _ _ hab hbc => charsLe_trans _ _ _ hab hbc⟩

instance : IsAntisymm String keyOrder :=
  ⟨fun a b hab hba => safeKey_inj a b (string_ext (charsLe_antisymm _ _ hab hba))⟩

/-- snapshot_internal is an identity on the permanent layer (deep copies are
structurally equal). -/
theorem snapshot_internal_eq (st : StoreState) :
    ConfigStore_snapshot_internal st = st.config := by
  simp [ConfigStore_snapshot_internal, deepcopy]

/-- Freezing is idempotent: the top of a frozen copy is never a mutable
container, and refreezing deep-copies it unchanged. -/
theorem ric_idem (v : PyVal) :
    recursive_immutable_copy (recursive_immutable_copy v) = recursive_immutable_copy v := by
  cases v <;> simp [recursive_immutable_copy, deepcopy]

/-- A mapping whose values are fixed points of freezing is unchanged by the
freezing map that ConfigStore.restore applies. -/
theorem map_ric_fixed {l : List (String × PyVal)}
    (h : ∀ kv ∈ l, recursive_immutable_copy kv.2 = kv.2) :
    l.map (fun kv => (kv.1, immutable_copy kv.2)) = l := by
  induction l with
  | nil => rfl
  | cons kv rest ih =>
    have h1 := h kv (by simp)
    have ih2 := ih (fun kv hm => h kv (by simp [hm]))
    simp only [List.map, immutable_copy] at ih2 ⊢
    simp [h1, ih2]



/-- Replacing the entry for k in place (the present-key branch of dictSet)
makes lookups of k yield the new value. -/
theorem alookup_map_replace {β : Type} (k : String) (v : β) :
    ∀ kvs : List (String × β), (alookup k kvs).isSome = true →
      alookup k (kvs.map (fun kv => if kv.1 = k then (k, v) else kv)) = some v := by
  intro kvs
  induction kvs with
  | nil => intro h; simp [alookup] at h
  | cons kv rest ih =>
    obtain ⟨a, b⟩ := kv
    intro h
    by_cases hk : a = k
    · subst hk
      simp only [List.map_cons]
      simp [alookup]
    · simp only [alookup, hk, if_false] at h
      simp only [List.map_cons]
      have hb : (if (a, b).1 = k then (k, v) else (a, b)) = (a, b) := if_neg hk
      rw [hb]
      simp only [alookup, hk, if_false]
      exact ih h

/-- Looking up the key just written by dictSet yields the new value. -/
theorem alookup_dictSet_self {β : Type} (kvs : List (String × β)) (k : String) (v : β) :
    alookup k (dictSet kvs k v) = some v := by
  unfold dictSet
  split
  next hp => exact alookup_map_replace k v kvs hp
  next hp =>
    induction kvs with
    | nil => simp [alookup]
    | cons kv rest ih =>
      obtain ⟨a, b⟩ := kv
      by_cases hk : a = k
      · simp [alookup, hk] at hp
      · simp only [alookup, hk, if_false] at hp
        simpa [alookup, hk] using ih hp

/-- Looking up a key just removed by dictRemove yields nothing. -/
theorem alookup_dictRemove_self {β : Type} (kvs : List (String × β)) (k : String) :
    alookup k (dictRemove kvs k) = none := by
  induction kvs with
  | nil => rfl
  | cons kv rest ih =>
    obtain ⟨a, b⟩ := kv
    by_cases hk : a = k
    · simpa [dictRemove, List.filter_cons, hk] using ih
    · simpa [dictRemove, List.filter_cons, hk, alookup] using ih

/-- Permuting a mapping with no duplicate keys does not change lookups. -/
theorem alookup_perm {β : Type} {l1 l2 : List (String × β)} (hp : l1.Perm l2)
    (hnd : (l1.map Prod.fst).Nodup) (k : String) : alookup k l1 = alookup k l2 := by
  revert hnd
  induction hp with
  | nil => intro _; rfl
  | cons x hp ih =>
    intro hnd
    obtain ⟨a, b⟩ := x
    by_cases hk : a = k
    · simp [alookup, hk]
    · simp only [alookup, hk, if_false]
      simp only [List.map_cons, List.nodup_cons] at hnd
      exact ih hnd.2
  | swap x y l =>
    intro hnd
    obtain ⟨a, b⟩ := x
    obtain ⟨c, d⟩ := y
    simp only [List.map_cons, List.nodup_cons, List.mem_cons] at hnd
    have hca : ¬ c = a := fun h => hnd.1 (Or.inl h)
    by_cases hc : c = k
    · by_cases ha : a = k
      · exact absurd (hc.trans ha.symm) hca
      · simp [alookup, hc, ha]
    · by_cases ha : a = k
      · simp [alookup, hc, ha]
      · simp [alookup, hc, ha]
  | trans h1 h2 ih1 ih2 =>
    intro hnd
    exact (ih1 hnd).trans (ih2 ((h1.map Prod.fst).nodup_iff.mp hnd))

/-- The canonical key order of two mappings with permuted key lists agrees. -/
theorem sortedKeys_eq_of_perm {A B : List (String × PyVal)}
    (hp : (A.map Prod.fst).Perm (B.map Prod.fst)) : sortedKeys A = sortedKeys B := by
  have h1 : List.Sorted keyOrder (sortedKeys A) := List.sorted_insertionSort keyOrder _
  have h2 : List.Sorted keyOrder (sortedKeys B) := List.sorted_insertionSort keyOrder _
  have hperm : (sortedKeys A).Perm (sortedKeys B) :=
    (List.perm_insertionSort keyOrder _).trans
      (hp.trans (List.perm_insertionSort keyOrder _).symm)
  exact List.eq_of_perm_of_sorted hperm h1 h2

/-- Two equal maps over the same list agree pointwise on its members. -/
theorem map_eq_map_forall {α β : Type} {l : List α} {f g : α → β}
    (h : l.map f = l.map g) : ∀ x ∈ l, f x = g x := by
  induction l with
  | nil => simp
  | cons a l ih =>
    simp only [List.map, List.cons.injEq] at h
    intro x hx
    rcases List.mem_cons.mp hx with rfl | hx
    · exact h.1
    · exact ih h.2 x hx

mutual
/-- Freezing a value built only of scalars, lists and dicts yields a deeply
frozen result. -/
theorem ric_frozen_of_plain : (v : PyVal) → isPlainData v = true →
    isFrozen (recursive_immutable_copy v) = true
  | .vnone, _ => rfl
  | .vbool _, _ => rfl
  | .vint _, _ => rfl
  | .vstr _, _ => rfl
  | .vlist xs, h => by
      simp only [isPlainData] at h
      simp only [recursive_immutable_copy, isFrozen]
      exact ricList_frozen xs h
  | .vtuple _, h => by simp [isPlainData] at h
  | .vdict kvs, h => by
      simp only [isPlainData] at h
      simp only [recursive_immutable_copy, isFrozen]
      exact ricKvs_frozen kvs h
  | .vproxy _, h => by simp [isPlainData] at h
theorem ricList_frozen : (xs : List PyVal) → plainList xs = true →
    frozenList (ricList xs) = true
  | [], _ => rfl
  | v :: vs, h => by
      simp only [plainList, Bool.and_eq_true] at h
      simp only [ricList, frozenList, Bool.and_eq_true]
      exact ⟨ric_frozen_of_plain v h.1, ricList_frozen vs h.2⟩
theorem ricKvs_frozen : (kvs : List (String × PyVal)) → plainKvs kvs = true →
    frozenKvs (ricKvs kvs) = true
  | [], _ => rfl
  | kv :: kvs, h => by
      simp only [plainKvs, Bool.and_eq_true] at h
      simp only [ricKvs, frozenKvs, Bool.and_eq_true]
      exact ⟨ric_frozen_of_plain kv.2 h.1, ricKvs_frozen kvs h.2⟩
end



/-- Deep-copying every value of a mapping is the identity. -/
theorem map_deepcopy_id (l : List (String × PyVal)) :
    l.map (fun kv => (kv.1, deepcopy kv.2)) = l := by
  simp [deepcopy]

/-! ## Claim theorems -/

/-- C9 counterexample: the mappings "K" ↦ (1,) (a tuple) and "K" ↦ [1] (a
list) hold different values at "K", yet json.dumps serializes tuples and
lists identically, so their checksums coincide - refuting "the checksums
differ whenever any value differs". -/
theorem checksum_collision_tuple_list :
    alookup "K" [("K", PyVal.vtuple [PyVal.vint 1])]
      ≠ alookup "K" [("K", PyVal.vlist [PyVal.vint 1])]
    ∧ checksum_of_config [("K", PyVal.vtuple [PyVal.vint 1])]
      = checksum_of_config [("K", PyVal.vlist [PyVal.vint 1])] :=
  ⟨by decide, by decide⟩

/-- C9 (amended): for mappings without duplicate keys, the checksum is
invariant under permutation of the key-value pairs; and checksums differ
whenever some key resolves to values whose canonical serializations differ
(value differences that serialize identically - e.g. a tuple versus the
equal-content list - collide). -/
theorem checksum_deterministic (A B : List (String × PyVal)) :
    ((A.map Prod.fst).Nodup → A.Perm B →
      checksum_of_config A = checksum_of_config B)
    ∧ (∀ k, (A.map Prod.fst).Perm (B.map Prod.fst) → k ∈ A.map Prod.fst →
        serializeEntry ((alookup k A).getD .vnone)
          ≠ serializeEntry ((alookup k B).getD .vnone) →
        checksum_of_config A ≠ checksum_of_config B) := by
  constructor
  · intro hnd hp
    unfold checksum_of_config stable_serialize_for_checksum
    rw [sortedKeys_eq_of_perm (hp.map Prod.fst)]
    apply List.map_congr_left
    intro k _
    rw [alookup_perm hp hnd k]
  · intro k hpk hk hne hcontra
    unfold checksum_of_config stable_serialize_for_checksum at hcontra
    rw [sortedKeys_eq_of_perm hpk] at hcontra
    have hmem : k ∈ sortedKeys B := by
      have h1 : k ∈ B.map Prod.fst := hpk.mem_iff.mp hk
      exact ((List.perm_insertionSort keyOrder (B.map Prod.fst)).mem_iff).mpr h1
    have := map_eq_map_forall hcontra k hmem
    exact hne (congrArg Prod.snd this)

/-- C9 witness: both halves of the amended claim at concrete mappings. -/
theorem checksum_deterministic_witness :
    checksum_of_config [("A", PyVal.vint 1), ("B", PyVal.vint 2)]
      = checksum_of_config [("B", PyVal.vint 2), ("A", PyVal.vint 1)]
    ∧ checksum_of_config [("A", PyVal.vint 1)] ≠ checksum_of_config [("A", PyVal.vint 2)] :=
  ⟨(checksum_deterministic _ _).1 (by decide) (by decide),
   (checksum_deterministic _ _).2 "A" (by decide) (by decide) (by decide)⟩

/-- C8 counterexample: a write of the tuple (1, [2]) through ConfigStore.set
succeeds and stores a value that still contains a mutable list - the frozen
copy does not freeze lists nested inside tuples, refuting freezing "at all
nesting depths". -/
theorem frozen_copy_counterexample :
    ConfigStore_set regI sI.store "ITEMS" (.vtuple [.vint 1, .vlist [.vint 2]]) true ""
      = .ok { config := [("ITEMS", .vtuple [.vint 1, .vlist [.vint 2]])],
              use_once := [], mutable_types := false }
    ∧ isFrozen (.vtuple [.vint 1, .vlist [.vint 2]]) = false :=
  ⟨by decide, by decide⟩

/-- C8 (amended): the value ConfigStore.set commits to the permanent layer is
exactly the recursively frozen copy of the input, and for inputs built only
of scalars, lists and dicts that copy is deeply frozen at all depths (every
list a tuple, every dict a read-only mapping); a mutable container nested
inside an already-immutable container is deep-copied but keeps its type. -/
theorem set_stores_frozen_copy (reg : Registry) (st st2 : StoreState) (k : String)
    (v : PyVal) (r : String) (hset : ConfigStore_set reg st k v true r = .ok st2) :
    (∃ n, resolve_param_name reg k = .ok n
       ∧ alookup n st2.config = some (recursive_immutable_copy v))
    ∧ (isPlainData v = true → isFrozen (recursive_immutable_copy v) = true) := by
  constructor
  · unfold ConfigStore_set at hset
    split at hset
    · exact absurd hset (by simp)
    next n hn =>
      split at hset
      · exact absurd hset (by simp)
      next spec hspec =>
        split at hset
        · exact absurd hset (by simp)
        · split at hset
          · exact absurd hset (by simp)
          · split at hset
            · exact absurd hset (by simp)
            · split at hset
              · exact absurd hset (by simp)
              · rw [if_pos rfl] at hset
                refine ⟨n, hn, ?_⟩
                cases hset
                simpa [immutable_copy] using
                  alookup_dictSet_self st.config n (recursive_immutable_copy v)
  · intro hp
    exact ric_frozen_of_plain v hp

/-- C8 witness: a plain list written through set is stored as its frozen
tuple copy, which is deeply frozen. -/
theorem set_stores_frozen_copy_witness :
    (∃ n, resolve_param_name regI "ITEMS" = .ok n
       ∧ alookup n ([("ITEMS", PyVal.vtuple [PyVal.vint 2])] : List (String × PyVal))
           = some (recursive_immutable_copy (.vlist [.vint 2])))
    ∧ (isPlainData (PyVal.vlist [PyVal.vint 2]) = true →
        isFrozen (recursive_immutable_copy (.vlist [.vint 2])) = true) :=
  set_stores_frozen_copy regI sI.store
    { config := [("ITEMS", PyVal.vtuple [PyVal.vint 2])], use_once := [], mutable_types := false }
    "ITEMS" (.vlist [.vint 2]) "" (by decide)

/-- C3: the code evaluated at the failing input.  update with a non-empty
reason on a require_reason parameter still raises the plain ValueError from
ConfigStore.set, because _apply_changes drops the caller-supplied reason;
AppConfig construction over such a spec fails the same way. -/
theorem require_reason_update_always_fails :
    AppConfig_update env0 regR sR false "maintenance window" [("DEPLOY_ENV", .vstr "prod")]
      = .error (.valueError "Setting config key DEPLOY_ENV requires a reason")
    ∧ AppConfig_init env0 regR []
      = .error (.valueError "Setting config key DEPLOY_ENV requires a reason") :=
  ⟨by decide, by decide⟩



/-- C6 counterexample: AppConfig.lock carries no torn-down guard - on a torn
down configuration it returns normally and locks, instead of failing with
AlreadyTornDown; temp_update is likewise unguarded and runs its whole
entry/restore cycle. -/
theorem teardown_guard_counterexample :
    (AppConfig_teardown sV).torn_down = true
    ∧ AppConfig_lock (AppConfig_teardown sV)
        = .ok { AppConfig_teardown sV with locked := true }
    ∧ (AppConfig_temp_update env0 regV false [] (fun s => (s, none))
        (AppConfig_teardown sV)).2 = none :=
  ⟨by decide, by decide, by decide⟩

/-- C6 (amended): teardown is idempotent and never raises (it is a total
function); after teardown, update, use_once, get, snapshot,
restore_from_snapshot and register_post_update_hook all fail with
AlreadyTornDown - but lock and unlock carry no guard and still succeed. -/
theorem teardown_semantics :
    (∀ s : ConfigState, AppConfig_teardown (AppConfig_teardown s) = AppConfig_teardown s)
    ∧ (∀ (env : Env) (reg : Registry) (s : ConfigState) (b : Bool) (r : String)
         (kw : List (String × PyVal)), s.torn_down = true →
           AppConfig_update env reg s b r kw = .error .tornDownError
         ∧ AppConfig_use_once env reg s b r kw = .error .tornDownError)
    ∧ (∀ (reg : Registry) (s : ConfigState) (k : String) (d : Option PyVal),
         s.torn_down = true → AppConfig_get reg s k d = .error .tornDownError)
    ∧ (∀ s : ConfigState, s.torn_down = true →
         AppConfig_snapshot s = .error .tornDownError
         ∧ AppConfig_register_post_update_hook s = .error .tornDownError)
    ∧ (∀ (env : Env) (reg : Registry) (s : ConfigState) (snap : List (String × PyVal))
         (b : Bool), s.torn_down = true →
           AppConfig_restore_from_snapshot env reg s snap b = .error .tornDownError)
    ∧ (∀ s : ConfigState, AppConfig_lock s = .ok { s with locked := true })
    ∧ (∀ (env : Env) (s : ConfigState), AppConfig_unlock env s false = .ok s) := by
  refine ⟨?_, ?_, ?_, ?_, ?_, ?_, ?_⟩
  · intro s
    simp [AppConfig_teardown, ConfigStore_clear, IntegrityGuard_clear]
  · intro env reg s b r kw h
    constructor
    · simp [AppConfig_update, h]
    · simp [AppConfig_use_once, h]
  · intro reg s k d h
    simp [AppConfig_get, h]
  · intro s h
    exact ⟨by simp [AppConfig_snapshot, h], by simp [AppConfig_register_post_update_hook, h]⟩
  · intro env reg s snap b h
    simp [AppConfig_restore_from_snapshot, h]
  · intro s
    rfl
  · intro env s
    obtain ⟨td, l, st, ig, hk⟩ := s
    by_cases hl : l <;> simp [AppConfig_unlock, LockGuard_unlock, require_bypass_env, hl]

/-- C6 witness: the amended claim at the concrete torn-down configuration. -/
theorem teardown_semantics_witness :
    AppConfig_teardown (AppConfig_teardown sV) = AppConfig_teardown sV
    ∧ AppConfig_update env0 regV (AppConfig_teardown sV) false "" []
        = .error .tornDownError
    ∧ AppConfig_get regV (AppConfig_teardown sV) "VERIFY" none = .error .tornDownError
    ∧ AppConfig_unlock env0 (AppConfig_teardown sV) false = .ok (AppConfig_teardown sV) :=
  ⟨teardown_semantics.1 sV,
   (teardown_semantics.2.1 env0 regV (AppConfig_teardown sV) false "" [] (by decide)).1,
   teardown_semantics.2.2.1 regV (AppConfig_teardown sV) "VERIFY" none (by decide),
   teardown_semantics.2.2.2.2.2.2 env0 (AppConfig_teardown sV)⟩

/-- C2 counterexample: over an empty registry, AppConfig construction and an
empty update both succeed, yet verify_integrity is false immediately
afterwards - IntegrityGuard.verify treats the (falsy) empty snapshot dict as
missing. -/
theorem verify_false_after_empty_update :
    (AppConfig_update env0 regE sE false "" []).map
      (fun s => AppConfig_verify_integrity env0 s) = .ok false := by
  decide

/-- C2 (amended): after any successful update, and any successful
restore_from_snapshot of a non-empty mapping, verify_integrity is true
provided the resulting permanent store is non-empty (an empty store always
verifies false because of the falsy-empty-dict guard); after teardown,
verify_integrity is false and remains callable (it is total). -/
theorem verify_after_mutations (env : Env) (reg : Registry) :
    (∀ (s : ConfigState) (b : Bool) (r : String) (kw : List (String × PyVal))
       (s2 : ConfigState), AppConfig_update env reg s b r kw = .ok s2 →
         s2.store.config ≠ [] → AppConfig_verify_integrity env s2 = true)
    ∧ (∀ (s : ConfigState) (snap : List (String × PyVal)) (b : Bool) (s2 : ConfigState),
         AppConfig_restore_from_snapshot env reg s snap b = .ok s2 → snap ≠ [] →
         s2.store.config ≠ [] → AppConfig_verify_integrity env s2 = true)
    ∧ (∀ s : ConfigState, AppConfig_verify_integrity env (AppConfig_teardown s) = false) := by
  refine ⟨?_, ?_, ?_⟩
  · intro s b r kw s2 h hne
    unfold AppConfig_update at h
    split at h
    · exact absurd h (by simp)
    · split at h
      · exact absurd h (by simp)
      · split at h
        · exact absurd h (by simp)
        · unfold AppConfig_apply_changes at h
          split at h
          · exact absurd h (by simp)
          next st2 hst2 =>
            cases h
            simp only [AppConfig_verify_integrity, IntegrityGuard_verify,
              IntegrityGuard_update_snapshot, map_deepcopy_id, snapshot_internal_eq]
            rw [if_neg (by simpa [List.isEmpty_iff] using hne)]
            simp
  · intro s snap b s2 h hsnap hne
    unfold AppConfig_restore_from_snapshot at h
    split at h
    · exact absurd h (by simp)
    · split at h
      · exact absurd h (by simp [List.isEmpty_iff] at *; exact absurd ‹snap = []› hsnap)
      · split at h
        · exact absurd h (by simp)
        · split at h
          · exact absurd h (by simp)
          · cases h
            simp only [AppConfig_verify_integrity, IntegrityGuard_verify,
              IntegrityGuard_update_snapshot, map_deepcopy_id, snapshot_internal_eq]
            rw [if_neg (by simpa [List.isEmpty_iff] using hne)]
            simp
  · intro s
    rfl

/-- C2 witness: the amended claim at a concrete configuration. -/
theorem verify_after_mutations_witness :
    AppConfig_verify_integrity env0
      { torn_down := false, locked := false,
        store := { config := [("VERIFY", PyVal.vbool false)], use_once := [],
                   mutable_types := false },
        integrity := IntegrityGuard_update_snapshot env0 [("VERIFY", PyVal.vbool false)],
        hooks := 0 } = true
    ∧ AppConfig_verify_integrity env0 (AppConfig_teardown sV) = false :=
  ⟨(verify_after_mutations env0 regV).1 sV false "" [("VERIFY", PyVal.vbool false)]
      _ (by decide) (by decide),
   (verify_after_mutations env0 regV).2.2 sV⟩



/-- C10: LockGuard.unlock without bypass returns normally and leaves a
locked guard locked (only a warning is emitted); on an already-unlocked
guard the state is never changed (and without bypass it returns normally);
and the only way a successful unlock takes a locked guard to unlocked is
bypass together with the environment signal. -/
theorem unlock_state_machine (env : Env) :
    (LockGuard_unlock env true false = .ok true)
    ∧ (LockGuard_unlock env false false = .ok false)
    ∧ (∀ b l2 : Bool, LockGuard_unlock env false b = .ok l2 → l2 = false)
    ∧ (∀ l b l2 : Bool, LockGuard_unlock env l b = .ok l2 → l = true → l2 = false →
        b = true ∧ require_bypass_env env = true) := by
  refine ⟨?_, ?_, ?_, ?_⟩
  · simp [LockGuard_unlock]
  · simp [LockGuard_unlock]
  · intro b l2 h
    cases b with
    | false => simpa [LockGuard_unlock] using h.symm
    | true =>
      by_cases he : require_bypass_env env
      · simpa [LockGuard_unlock, he] using h.symm
      · simp [LockGuard_unlock, he] at h
  · intro l b l2 h hl hl2
    subst hl
    cases b with
    | false =>
      rw [show LockGuard_unlock env true false = .ok true by simp [LockGuard_unlock]] at h
      cases h
      cases hl2
    | true =>
      by_cases he : require_bypass_env env
      · exact ⟨rfl, he⟩
      · simp [LockGuard_unlock, he] at h

/-- C10 witness: the unlock state machine at concrete inputs (signal present
and absent). -/
theorem unlock_state_machine_witness :
    LockGuard_unlock env0 true false = .ok true
    ∧ LockGuard_unlock env0 false false = .ok false
    ∧ ((false : Bool) = false)
    ∧ ((true : Bool) = true ∧ require_bypass_env envB = true) :=
  ⟨(unlock_state_machine env0).1,
   (unlock_state_machine env0).2.1,
   (unlock_state_machine env0).2.2.1 false false (by decide),
   (unlock_state_machine envB).2.2.2 true true false (by decide) rfl rfl⟩

/-- C7: on a live, locked configuration, update without bypass always fails
with ConfigLocked (whatever the environment); update with bypass and no
environment signal fails with BypassDenied before touching the store; update
with bypass and the signal skips the lock gate entirely and proceeds to
validation and commit - and on a concrete locked configuration with a valid
value it succeeds. -/
theorem update_lock_gating (env : Env) (reg : Registry) (s : ConfigState)
    (reason : String) (kwargs : List (String × PyVal))
    (hlive : s.torn_down = false) (hlock : s.locked = true) :
    (AppConfig_update env reg s false reason kwargs = .error .lockedError)
    ∧ (require_bypass_env env = false →
        AppConfig_update env reg s true reason kwargs = .error .bypassError)
    ∧ (require_bypass_env env = true →
        AppConfig_update env reg s true reason kwargs
          = match AppConfig_validate_and_resolve reg true "update" kwargs with
            | .error e => .error e
            | .ok resolved => AppConfig_apply_changes env reg s resolved true)
    ∧ exceptIsOk (AppConfig_update envB regV { sV with locked := true } true ""
        [("VERIFY", PyVal.vbool false)]) = true := by
  refine ⟨?_, ?_, ?_, by decide⟩
  · simp [AppConfig_update, hlive, LockGuard_ensure_unlocked, hlock]
  · intro he
    simp [AppConfig_update, hlive, LockGuard_ensure_unlocked, hlock, he]
  · intro he
    simp [AppConfig_update, hlive, LockGuard_ensure_unlocked, hlock, he]

/-- C7 witness: the lock gate at a concrete locked configuration - rejection
without bypass, rejection on bypass without the signal, success on bypass
with the signal. -/
theorem update_lock_gating_witness :
    AppConfig_update envB regV { sV with locked := true } false ""
      [("VERIFY", PyVal.vbool false)] = .error .lockedError
    ∧ AppConfig_update env0 regV { sV with locked := true } true ""
        [("VERIFY", PyVal.vbool false)] = .error .bypassError
    ∧ exceptIsOk (AppConfig_update envB regV { sV with locked := true } true ""
        [("VERIFY", PyVal.vbool false)]) = true :=
  ⟨(update_lock_gating envB regV { sV with locked := true } ""
      [("VERIFY", PyVal.vbool false)] (by decide) (by decide)).1,
   (update_lock_gating env0 regV { sV with locked := true } ""
      [("VERIFY", PyVal.vbool false)] (by decide) (by decide)).2.1 (by decide),
   (update_lock_gating envB regV { sV with locked := true } ""
      [("VERIFY", PyVal.vbool false)] (by decide) (by decide)).2.2.2⟩



/-- C1: on every exit of temp_update - whatever the kwargs, however the body
behaves (including bodies that run nested temp_updates or raise) - the
permanent store is restored to the snapshot captured at entry and the
checksum captured at entry is reinstated verbatim, for any state that holds
a checksum and whose stored values are frozen copies (as every reachable
store is).  The second half settles the concrete nested LIFO scenario:
permanent VERIFY=True, outer temp_update(VERIFY=False) containing inner
temp_update(VERIFY=True) whose body raises - VERIFY reads False inside the
outer block before and after the inner block, and True with the original
checksum after the outer exit. -/
theorem temp_update_restores (env : Env) (reg : Registry) (bypass : Bool)
    (kwargs : List (String × PyVal))
    (body : ConfigState → ConfigState × Option CgError)
    (s : ConfigState) (c : SealedChecksum)
    (hc : s.integrity.last_checksum = some c)
    (hfix : ∀ kv ∈ s.store.config, recursive_immutable_copy kv.2 = kv.2) :
    ((AppConfig_temp_update env reg bypass kwargs body s).1.store.config = s.store.config
     ∧ (AppConfig_temp_update env reg bypass kwargs body s).1.integrity.last_checksum = some c)
    ∧ ((AppConfig_get regV midOuter "VERIFY" none).map Prod.fst = .ok (.vbool false)
       ∧ (innerTemp midOuter).2 = some (.valueError "inner body raised")
       ∧ (AppConfig_get regV (innerTemp midOuter).1 "VERIFY" none).map Prod.fst
           = .ok (.vbool false)
       ∧ (AppConfig_temp_update env0 regV false [("VERIFY", PyVal.vbool false)]
            outerBody sV).2 = none
       ∧ (AppConfig_get regV (AppConfig_temp_update env0 regV false
            [("VERIFY", PyVal.vbool false)] outerBody sV).1 "VERIFY" none).map Prod.fst
           = .ok (.vbool true)
       ∧ (AppConfig_temp_update env0 regV false [("VERIFY", PyVal.vbool false)]
            outerBody sV).1.integrity.last_checksum = sV.integrity.last_checksum) := by
  constructor
  · constructor
    · have h1 : (AppConfig_temp_update env reg bypass kwargs body s).1.store.config
          = (ConfigStore_snapshot_internal s.store).map
              (fun kv => (kv.1, immutable_copy kv.2)) := rfl
      rw [h1, snapshot_internal_eq]
      exact map_ric_fixed hfix
    · have h2 : (AppConfig_temp_update env reg bypass kwargs body s).1.integrity
          = (match s.integrity.last_checksum with
             | some c =>
               { IntegrityGuard_update_snapshot env (ConfigStore_snapshot_internal s.store)
                 with last_checksum := some c }
             | none =>
               IntegrityGuard_update_snapshot env (ConfigStore_snapshot_internal s.store)) := rfl
      rw [hc] at h2
      rw [h2]
  · exact ⟨by decide, by decide, by decide, by decide, by decide, by decide⟩

/-- C1 witness: the frame property instantiated at the concrete
configuration with a raising body. -/
theorem temp_update_restores_witness :
    (AppConfig_temp_update env0 regV false [("VERIFY", PyVal.vbool false)]
       raisingBody sV).1.store.config = sV.store.config
    ∧ (AppConfig_temp_update env0 regV false [("VERIFY", PyVal.vbool false)]
         raisingBody sV).1.integrity.last_checksum
      = some (seal_checksum env0 (checksum_of_config [("VERIFY", PyVal.vbool true)])) :=
  (temp_update_restores env0 regV false [("VERIFY", PyVal.vbool false)] raisingBody sV
     (seal_checksum env0 (checksum_of_config [("VERIFY", PyVal.vbool true)]))
     (by decide) (by decide)).1



/-- Freezing twice is freezing once: the top of a frozen copy is never a
mutable container. -/
theorem immutable_copy_idem (v : PyVal) :
    immutable_copy (immutable_copy v) = immutable_copy v := ric_idem v

/-- A canonical registry name resolves to itself. -/
theorem resolve_canonical {reg : Registry} {name : String}
    (hcanon : canon name = name) (hspec : (alookup name reg.specs).isSome = true) :
    resolve_param_name reg name = .ok name := by
  unfold resolve_param_name
  simp only [hcanon, hspec, if_true]

/-- get_param_spec on a canonical registry name takes the fast path. -/
theorem get_param_spec_canonical {reg : Registry} {name : String} {spec : ParamSpec}
    (hcanon : canon name = name) (hspec : alookup name reg.specs = some spec) :
    get_param_spec reg name = .ok spec := by
  unfold get_param_spec
  simp only [hcanon, hspec]

/-- C4 counterexample: use_once(ITEMS=[1]) succeeds, but the first get
returns the frozen tuple (1,), not the list [1] that was supplied -
refuting "the first subsequent get(K) returns v" for list values. -/
theorem use_once_get_counterexample :
    AppConfig_use_once env0 regI sI false "" [("ITEMS", PyVal.vlist [PyVal.vint 1])]
      = .ok sI1
    ∧ (AppConfig_get regI sI1 "ITEMS" none).map Prod.fst = .ok (.vtuple [.vint 1])
    ∧ PyVal.vtuple [PyVal.vint 1] ≠ PyVal.vlist [PyVal.vint 1] :=
  ⟨by decide, by decide, by decide⟩

/-- C4 (amended): after a successful use_once(K=v) with a valid value v, the
first get(K) returns the frozen copy of v (equal to v whenever v contains no
mutable containers at freezable positions) and deletes the ephemeral entry;
the second get(K) returns the permanent value for K if one is stored, else
the supplied default - never the ephemeral value again. -/
theorem use_once_consume_once (env : Env) (reg : Registry) (s s1 : ConfigState)
    (K : String) (v : PyVal) (r : String) (name : String) (spec : ParamSpec) (d : PyVal)
    (hname : resolve_param_name reg K = .ok name)
    (hcanon : canon name = name)
    (hspec : alookup name reg.specs = some spec)
    (hval : validate_value reg name v = .ok ())
    (h1 : AppConfig_use_once env reg s false r [(K, v)] = .ok s1) :
    ∃ s2 : ConfigState,
      AppConfig_get reg s1 K (some d) = .ok (immutable_copy v, s2)
      ∧ alookup name s2.store.use_once = none
      ∧ s2.store.config = s.store.config
      ∧ AppConfig_get reg s2 K (some d)
          = .ok (deepcopy ((alookup name s.store.config).getD d), s2) := by
  have hspecSome : (alookup name reg.specs).isSome = true := by rw [hspec]; rfl
  have hresn := resolve_canonical hcanon hspecSome
  have hgps := get_param_spec_canonical hcanon hspec
  unfold AppConfig_use_once at h1
  split at h1
  · exact absurd h1 (by simp)
  next htd =>
    have htd2 : s.torn_down = false := by
      cases h : s.torn_down
      · rfl
      · exact absurd h htd
    split at h1
    · exact absurd h1 (by simp)
    · split at h1
      · exact absurd h1 (by simp)
      next resolved hv2 =>
        rw [show AppConfig_validate_and_resolve reg false "use_once" [(K, v)]
              = .ok [(name, immutable_copy v)] by
            unfold AppConfig_validate_and_resolve
            rw [show varLoop reg false "use_once" [(K, v)] [] []
                  = .ok ([], [(name, immutable_copy v)]) by
                unfold varLoop
                rw [hname]
                simp only [Bool.false_eq_true, if_false, hval]
                unfold varLoop
                simp [dictSet, alookup]]
            rfl] at hv2
        cases hv2
        unfold AppConfig_apply_changes at h1
        split at h1
        · exact absurd h1 (by simp)
        next st2 hst2 =>
          unfold ConfigStore_set_all at hst2
          split at hst2
          · exact absurd hst2 (by simp)
          next st3 hset =>
            unfold ConfigStore_set_all at hst2
            cases hst2
            unfold ConfigStore_set at hset
            simp only [hresn, hgps] at hset
            split at hset
            · exact absurd hset (by simp)
            · split at hset
              · exact absurd hset (by simp)
              · split at hset
                · exact absurd hset (by simp)
                · split at hset
                  · exact absurd hset (by simp)
                  · simp only [Bool.false_eq_true, if_false] at hset
                    cases hset
                    cases h1
                    refine ⟨(⟨s.torn_down, s.locked,
                        ⟨s.store.config,
                         dictRemove (dictSet s.store.use_once name
                           (immutable_copy (immutable_copy v))) name,
                         s.store.mutable_types⟩,
                        IntegrityGuard_update_snapshot env
                          (ConfigStore_snapshot_internal
                            ⟨s.store.config,
                             dictSet s.store.use_once name
                               (immutable_copy (immutable_copy v)),
                             s.store.mutable_types⟩),
                        s.hooks⟩ : ConfigState), ?_, ?_, ?_, ?_⟩
                    · unfold AppConfig_get
                      rw [if_neg (by simp [htd2])]
                      simp only [hname, hgps]
                      unfold ConfigStore_get
                      simp only [hresn, alookup_dictSet_self, immutable_copy_idem, deepcopy]
                    · exact alookup_dictRemove_self _ _
                    · rfl
                    · unfold AppConfig_get
                      rw [if_neg (by simp [htd2])]
                      simp only [hname, hgps]
                      unfold ConfigStore_get
                      simp only [hresn, alookup_dictRemove_self, deepcopy]


/-- C4 witness: the amended consume-once behaviour at the concrete
configuration regI, with the supplied default "dflt". -/
theorem use_once_consume_once_witness :
    ∃ s2 : ConfigState,
      AppConfig_get regI sI1 "ITEMS" (some (PyVal.vstr "dflt"))
        = .ok (immutable_copy (.vlist [.vint 1]), s2)
      ∧ alookup "ITEMS" s2.store.use_once = none
      ∧ s2.store.config = sI.store.config
      ∧ AppConfig_get regI s2 "ITEMS" (some (PyVal.vstr "dflt"))
          = .ok (deepcopy ((alookup "ITEMS" sI.store.config).getD (.vstr "dflt")), s2) :=
  use_once_consume_once env0 regI sI sI1 "ITEMS" (.vlist [.vint 1]) "" "ITEMS"
    { name := "ITEMS", default := .vtuple [], value_type := [.tlist, .ttuple] }
    (.vstr "dflt") (by decide) (by decide) rfl (by decide) (by decide)

/-- Lookups present on the left of an append are unchanged by it. -/
theorem alookup_append_left {β : Type} (k : String) (l l2 : List (String × β))
    (h : (alookup k l).isSome = true) : alookup k (l ++ l2) = alookup k l := by
  induction l with
  | nil => simp [alookup] at h
  | cons kv rest ih =>
    obtain ⟨a, b⟩ := kv
    by_cases ha : a = k
    · simp [alookup, List.cons_append, ha]
    · simp only [alookup, ha, if_false] at h
      simpa [alookup, List.cons_append, ha] using ih h

/-- The in-place replacement of dictSet preserves presence of every key. -/
theorem alookup_map_replace_isSome {β : Type} (k k2 : String) (v : β)
    (l : List (String × β)) (h : (alookup k l).isSome = true) :
    (alookup k (l.map (fun kv => if kv.1 = k2 then (k2, v) else kv))).isSome = true := by
  by_cases hk : k = k2
  · subst hk
    rw [alookup_map_replace k v l h]
    rfl
  · induction l with
    | nil => simp [alookup] at h
    | cons kv rest ih =>
      obtain ⟨a, b⟩ := kv
      by_cases ha : a = k2
      · subst ha
        have hka : ¬(a = k) := fun hh => hk hh.symm
        simp only [alookup, hka, if_false] at h
        simp only [List.map_cons]
        simp only [alookup, hka, if_false]
        exact ih h
      · by_cases hak : a = k
        · simp only [List.map_cons]
          have hb : (if (a, b).1 = k2 then (k2, v) else (a, b)) = (a, b) := if_neg ha
          rw [hb]
          simp [alookup, hak]
        · simp only [alookup, hak, if_false] at h
          simp only [List.map_cons]
          have hb : (if (a, b).1 = k2 then (k2, v) else (a, b)) = (a, b) := if_neg ha
          rw [hb]
          simp only [alookup, hak, if_false]
          exact ih h

/-- dictSet never removes a key that was present. -/
theorem alookup_dictSet_isSome_mono {β : Type} (l : List (String × β)) (k k2 : String)
    (v : β) (h : (alookup k l).isSome = true) :
    (alookup k (dictSet l k2 v)).isSome = true := by
  unfold dictSet
  split
  · exact alookup_map_replace_isSome k k2 v l h
  · rw [alookup_append_left k l [(k2, v)] h]
    exact h

/-- addErrors never removes a key that was present. -/
theorem addErrors_mono (ctx : String) : ∀ (errs errors : List (String × String)) (k : String),
    (alookup k errors).isSome = true → (alookup k (addErrors ctx errors errs)).isSome = true
  | [], _, _, h => h
  | (k2, m) :: rest, errors, k, h =>
    addErrors_mono ctx rest _ k (alookup_dictSet_isSome_mono errors k k2 _ h)

/-- addErrors records every key of the added error mapping. -/
theorem addErrors_adds (ctx : String) : ∀ (errs errors : List (String × String)),
    ∀ entry ∈ errs, (alookup entry.1 (addErrors ctx errors errs)).isSome = true := by
  intro errs
  induction errs with
  | nil => intro errors entry h; cases h
  | cons e rest ih =>
    intro errors entry hm
    obtain ⟨k2, m⟩ := e
    rcases List.mem_cons.mp hm with rfl | hm2
    · exact addErrors_mono ctx rest _ k2 (by rw [alookup_dictSet_self]; rfl)
    · exact ih _ entry hm2

/-- Every failure of ParamSpec.validate carries a single error entry keyed by
the spec name. -/
theorem validate_error_shape (spec : ParamSpec) (v : PyVal) (e : CgError)
    (h : spec.validate v = .error e) : ∃ m, e = .validationError [(spec.name, m)] := by
  unfold ParamSpec.validate at h
  split at h
  · split at h
    · simp at h
    · exact ⟨_, (Except.error.inj h).symm⟩
  · split at h
    · exact ⟨_, (Except.error.inj h).symm⟩
    · split at h
      · exact ⟨_, (Except.error.inj h).symm⟩
      · split at h
        · split at h
          · simp at h
          · exact ⟨_, (Except.error.inj h).symm⟩
        · simp at h

/-- validate_value on a canonical registered name is exactly the spec
contract. -/
theorem validate_value_canonical {reg : Registry} {name : String} {spec : ParamSpec}
    (hcanon : canon name = name) (hspec : alookup name reg.specs = some spec) (v : PyVal) :
    validate_value reg name v = spec.validate v := by
  unfold validate_value
  simp only [resolve_canonical hcanon (by rw [hspec]; rfl),
    get_param_spec_canonical hcanon hspec]

/-- The _validate_and_resolve loop over a batch of resolvable keys never
raises mid-loop, preserves previously collected error keys, and collects an
error entry (keyed by the spec name) for every key failing validation. -/
theorem varLoop_aggregates (reg : Registry) (ctx : String) :
    ∀ (input : List (String × PyVal)) (errors : List (String × String))
      (resolved : List (String × PyVal)),
    (∀ kv ∈ input, ∃ n spec, resolve_param_name reg kv.1 = .ok n
        ∧ canon n = n ∧ alookup n reg.specs = some spec) →
    ∃ errors2 resolved2,
      varLoop reg false ctx input errors resolved = .ok (errors2, resolved2)
      ∧ (∀ k, (alookup k errors).isSome = true → (alookup k errors2).isSome = true)
      ∧ (∀ kv ∈ input, ∀ n spec, resolve_param_name reg kv.1 = .ok n →
          alookup n reg.specs = some spec → validate_value reg n kv.2 ≠ .ok () →
          (alookup spec.name errors2).isSome = true) := by
  intro input
  induction input with
  | nil =>
    intro errors resolved _
    exact ⟨errors, resolved, rfl, fun _ h => h, by simp⟩
  | cons kv rest ih =>
    intro errors resolved hres
    obtain ⟨K0, v0⟩ := kv
    obtain ⟨n, spec, hn, hcn, hsp⟩ := hres (K0, v0) (by simp)
    have hvv := validate_value_canonical hcn hsp v0
    cases hv : validate_value reg n v0 with
    | ok u =>
      obtain ⟨errors2, resolved2, heq, hmono, hadds⟩ :=
        ih errors (dictSet resolved n (immutable_copy v0))
          (fun kv2 hm => hres kv2 (List.mem_cons_of_mem _ hm))
      refine ⟨errors2, resolved2, ?_, hmono, ?_⟩
      · unfold varLoop
        simp only [hn, Bool.false_eq_true, if_false, hv]
        exact heq
      · intro kv2 hm n2 spec2 hn2 hsp2 hbad
        rcases List.mem_cons.mp hm with rfl | hm2
        · rw [hn] at hn2
          cases hn2
          cases u
          exact absurd hv hbad
        · exact hadds kv2 hm2 n2 spec2 hn2 hsp2 hbad
    | error e =>
      rw [hvv] at hv
      obtain ⟨m, rfl⟩ := validate_error_shape spec v0 e hv
      obtain ⟨errors2, resolved2, heq, hmono, hadds⟩ :=
        ih (addErrors ctx errors [(spec.name, m)]) resolved
          (fun kv2 hm => hres kv2 (List.mem_cons_of_mem _ hm))
      refine ⟨errors2, resolved2, ?_, ?_, ?_⟩
      · unfold varLoop
        simp only [hn, Bool.false_eq_true, if_false, hvv, hv]
        exact heq
      · intro k hk
        exact hmono k (addErrors_mono ctx [(spec.name, m)] errors k hk)
      · intro kv2 hm n2 spec2 hn2 hsp2 hbad
        rcases List.mem_cons.mp hm with rfl | hm2
        · rw [hn] at hn2
          cases hn2
          rw [hsp] at hsp2
          cases hsp2
          exact hmono spec.name
            (addErrors_adds ctx [(spec.name, m)] errors (spec.name, m) (by simp))
        · exact hadds kv2 hm2 n2 spec2 hn2 hsp2 hbad



/-- C5 counterexample: in the batch {A: "bad", MISSING: 1} the key A fails
validation and MISSING is unknown, yet update, use_once and
restore_from_snapshot all raise a ConfigNotFoundError naming only MISSING -
resolve_param_name runs outside the per-key try block, so an unknown key
aborts the loop and the already collected entry for A is lost. -/
theorem batch_unknown_key_fail_fast :
    AppConfig_update env0 regA sA false ""
      [("A", PyVal.vstr "bad"), ("MISSING", PyVal.vint 1)]
      = .error (.notFoundError [("MISSING", "Unknown configuration parameter.")])
    ∧ AppConfig_use_once env0 regA sA false ""
        [("A", PyVal.vstr "bad"), ("MISSING", PyVal.vint 1)]
      = .error (.notFoundError [("MISSING", "Unknown configuration parameter.")])
    ∧ AppConfig_restore_from_snapshot env0 regA sA
        [("A", PyVal.vstr "bad"), ("MISSING", PyVal.vint 1)] false
      = .error (.notFoundError [("MISSING", "Unknown configuration parameter.")]) :=
  ⟨by decide, by decide, by decide⟩

/-- C5 (amended): when every key of the batch resolves to a registered
parameter, each of update, use_once and restore_from_snapshot (with a
non-empty snapshot, as a batch with an offending key always is) raises
exactly one ConfigValidationError whose detail mapping contains an entry
for every key failing validation; an unknown key instead aborts immediately
with ParameterNotFound naming only that key. -/
theorem batch_validation_aggregation (env : Env) (reg : Registry) (s : ConfigState)
    (r : String) (kwargs : List (String × PyVal))
    (hlive : s.torn_down = false) (hunlocked : s.locked = false)
    (hres : ∀ kv ∈ kwargs, ∃ n spec, resolve_param_name reg kv.1 = .ok n
        ∧ canon n = n ∧ alookup n reg.specs = some spec)
    (kbad : String × PyVal) (hkbad : kbad ∈ kwargs) (nbad : String) (specbad : ParamSpec)
    (hnbad : resolve_param_name reg kbad.1 = .ok nbad)
    (hspecbad : alookup nbad reg.specs = some specbad)
    (hbadv : validate_value reg nbad kbad.2 ≠ .ok ()) :
    (∃ errs, AppConfig_update env reg s false r kwargs = .error (.validationError errs)
      ∧ (∀ kv ∈ kwargs, ∀ n spec, resolve_param_name reg kv.1 = .ok n →
          alookup n reg.specs = some spec → validate_value reg n kv.2 ≠ .ok () →
          (alookup spec.name errs).isSome = true))
    ∧ (∃ errs, AppConfig_use_once env reg s false r kwargs
        = .error (.validationError errs)
      ∧ (∀ kv ∈ kwargs, ∀ n spec, resolve_param_name reg kv.1 = .ok n →
          alookup n reg.specs = some spec → validate_value reg n kv.2 ≠ .ok () →
          (alookup spec.name errs).isSome = true))
    ∧ (∃ errs, AppConfig_restore_from_snapshot env reg s kwargs false
        = .error (.validationError errs)
      ∧ (∀ kv ∈ kwargs, ∀ n spec, resolve_param_name reg kv.1 = .ok n →
          alookup n reg.specs = some spec → validate_value reg n kv.2 ≠ .ok () →
          (alookup spec.name errs).isSome = true)) := by
  have hens : LockGuard_ensure_unlocked env s.locked false = .ok () := by
    unfold LockGuard_ensure_unlocked
    rw [if_neg (by simp [hunlocked]), if_neg (by simp)]
  have hkne : kwargs.isEmpty = false := by
    cases kwargs with
    | nil => cases hkbad
    | cons a l => rfl
  refine ⟨?_, ?_, ?_⟩
  · obtain ⟨errors2, resolved2, heq, hmono, hadds⟩ :=
      varLoop_aggregates reg "update" kwargs [] [] hres
    have hkey := hadds kbad hkbad nbad specbad hnbad hspecbad hbadv
    have hne : errors2.isEmpty = false := by
      cases errors2 with
      | nil => simp [alookup] at hkey
      | cons e rest => rfl
    have hvar : AppConfig_validate_and_resolve reg false "update" kwargs
        = .error (.validationError errors2) := by
      unfold AppConfig_validate_and_resolve
      simp only [heq, hne]
      rfl
    refine ⟨errors2, ?_, hadds⟩
    unfold AppConfig_update
    rw [if_neg (by simp [hlive])]
    simp only [hens, hvar]
  · obtain ⟨errors2, resolved2, heq, hmono, hadds⟩ :=
      varLoop_aggregates reg "use_once" kwargs [] [] hres
    have hkey := hadds kbad hkbad nbad specbad hnbad hspecbad hbadv
    have hne : errors2.isEmpty = false := by
      cases errors2 with
      | nil => simp [alookup] at hkey
      | cons e rest => rfl
    have hvar : AppConfig_validate_and_resolve reg false "use_once" kwargs
        = .error (.validationError errors2) := by
      unfold AppConfig_validate_and_resolve
      simp only [heq, hne]
      rfl
    refine ⟨errors2, ?_, hadds⟩
    unfold AppConfig_use_once
    rw [if_neg (by simp [hlive])]
    simp only [hens, hvar]
  · obtain ⟨errors2, resolved2, heq, hmono, hadds⟩ :=
      varLoop_aggregates reg "restore_from_snapshot" kwargs [] [] hres
    have hkey := hadds kbad hkbad nbad specbad hnbad hspecbad hbadv
    have hne : errors2.isEmpty = false := by
      cases errors2 with
      | nil => simp [alookup] at hkey
      | cons e rest => rfl
    have hvar : AppConfig_validate_and_resolve reg false "restore_from_snapshot" kwargs
        = .error (.validationError errors2) := by
      unfold AppConfig_validate_and_resolve
      simp only [heq, hne]
      rfl
    refine ⟨errors2, ?_, hadds⟩
    unfold AppConfig_restore_from_snapshot
    rw [if_neg (by simp [hlive])]
    rw [if_neg (by simp [hkne])]
    simp only [hens, hvar]

/-- C5 witness: the batch {A: "x", B: "y"} over two registered integer
parameters - update, use_once and restore_from_snapshot each raise one
aggregated error covering both keys. -/
theorem batch_validation_aggregation_witness :
    (∃ errs, AppConfig_update env0 regAB sAB false ""
        [("A", PyVal.vstr "x"), ("B", PyVal.vstr "y")]
        = .error (.validationError errs)
      ∧ (∀ kv ∈ [("A", PyVal.vstr "x"), ("B", PyVal.vstr "y")],
          ∀ n spec, resolve_param_name regAB kv.1 = .ok n →
          alookup n regAB.specs = some spec →
          validate_value regAB n kv.2 ≠ .ok () →
          (alookup spec.name errs).isSome = true))
    ∧ (∃ errs, AppConfig_use_once env0 regAB sAB false ""
        [("A", PyVal.vstr "x"), ("B", PyVal.vstr "y")]
        = .error (.validationError errs)
      ∧ (∀ kv ∈ [("A", PyVal.vstr "x"), ("B", PyVal.vstr "y")],
          ∀ n spec, resolve_param_name regAB kv.1 = .ok n →
          alookup n regAB.specs = some spec →
          validate_value regAB n kv.2 ≠ .ok () →
          (alookup spec.name errs).isSome = true))
    ∧ (∃ errs, AppConfig_restore_from_snapshot env0 regAB sAB
        [("A", PyVal.vstr "x"), ("B", PyVal.vstr "y")] false
        = .error (.validationError errs)
      ∧ (∀ kv ∈ [("A", PyVal.vstr "x"), ("B", PyVal.vstr "y")],
          ∀ n spec, resolve_param_name regAB kv.1 = .ok n →
          alookup n regAB.specs = some spec →
          validate_value regAB n kv.2 ≠ .ok () →
          (alookup spec.name errs).isSome = true)) :=
  batch_validation_aggregation env0 regAB sAB ""
    [("A", PyVal.vstr "x"), ("B", PyVal.vstr "y")] (by decide) (by decide)
    (by
      intro kv hm
      rcases List.mem_cons.mp hm with rfl | hm2
      · exact ⟨"A", { name := "A", default := .vint 0, value_type := [.tint] },
          by decide, by decide, rfl⟩
      · rcases List.mem_cons.mp hm2 with rfl | hm3
        · exact ⟨"B", { name := "B", default := .vint 0, value_type := [.tint] },
            by decide, by decide, rfl⟩
        · cases hm3)
    ("A", PyVal.vstr "x") (by simp) "A"
    { name := "A", default := .vint 0, value_type := [.tint] }
    (by decide) rfl (by decide)


end ConfigGuard
